import Mathlib

/-!
# maze-runner: motion and sweep control of the iRobot

A shallow embedding of `MOVE.c` and `IROBOT.c`.  Hardware is explicit state:
the serial link is a stream of incoming bytes with a read position and a log
of the bytes written; the display is a log of what was printed; the stepper
driver and the IR readings are handed to the sweep by its caller.

* Machine integers are `Int`/`Nat` with explicit reduction modulo `2^16`.
* A `while` loop becomes a function with a bound `fuel` on the number of
  iterations: `none` means the loop has not exited within that many
  iterations.  Statements about a run that returns give the number of
  iterations that suffices.
* What the sources take from headers that are not at hand (opcodes of
  `OPCODES.h`, the overlays and `bool` of `types.h`, the width of `int`) is
  collected in `Target`; every theorem holds for every target.
* An IR reading (a `double` in the source) is a rational number: the sweep
  only compares readings with each other and with the sentinel 4000.
-/

namespace MazeRunner

/-! ## Machine integers and the two-byte overlay -/

/-- Bit pattern (two's complement) of a value stored in a 16-bit object. -/
def toUInt16 (x : Int) : Nat := (x % 65536).toNat

/-- Value of an integer after conversion to `int16_t` (wraps modulo `2^16`). -/
def toInt16 (x : Int) : Int := (x + 32768) % 65536 - 32768

/-- Modelled from the spec: `types.h` is absent, so the overlay of a 16-bit
`l` with the byte pair `s.Hi`, `s.Lo` follows the encoding rule of the
transport: `Hi` holds bits 8..15 and `Lo` bits 0..7 of the 16-bit pattern. -/
structure uint16union_t where
  /-- The byte `s.Hi`. -/
  Hi : Nat
  /-- The byte `s.Lo`. -/
  Lo : Nat
deriving DecidableEq, Repr

/-- The signed overlay has the same layout as the unsigned one. -/
abbrev int16union_t := uint16union_t

/-- Reading `u.l` of a `uint16union_t` whose bytes were stored separately. -/
def uint16union_t.l (u : uint16union_t) : Nat :=
  ((u.Hi % 256) <<< 8) ||| (u.Lo % 256)

/-- Storing `u.l = v` into an `int16union_t` and looking at its two bytes. -/
def int16union_t.store (v : Int) : int16union_t :=
  { Hi := (toUInt16 v >>> 8) &&& 0xFF, Lo := toUInt16 v &&& 0xFF }

/-- The expression `(int16_t) rxdata.l` after `rxdata.s.Hi = hi; rxdata.s.Lo = lo`. -/
def rxdata_int16 (hi lo : Nat) : Int :=
  toInt16 ((uint16union_t.l { Hi := hi, Lo := lo } : Nat) : Int)

/-! ## Declarations the sources take from absent headers -/

/-- Rotation sense, `TDIRECTION` of `types.h`. -/
inductive TDIRECTION where
  | DIR_CW
  | DIR_CCW
deriving DecidableEq, Repr

/-- Screen regions named in `LCD_Print` calls. -/
inductive TLCDPOS where
  | TOP_RIGHT
  | BM_LEFT
  | BM_RIGHT
deriving DecidableEq, Repr

/-- Everything `MOVE.c` and `IROBOT.c` take from headers and from the compiler
that is not part of the sources at hand.  Each theorem below holds for every
choice of these. -/
structure Target where
  /-- The opcode `OP_SENSORS` of `OPCODES.h`, as used by `MOVE.c`. -/
  OP_SENSORS : Nat
  /-- The opcode `OP_SENS_DIST` of `OPCODES.h`. -/
  OP_SENS_DIST : Nat
  /-- The opcode `OP_SENS_ANGLE` of `OPCODES.h`. -/
  OP_SENS_ANGLE : Nat
  /-- The opcode `OP_DRIVE_DIRECT` of `OPCODES.h`. -/
  OP_DRIVE_DIRECT : Nat
  /-- The opcode `OP_QUERY` of `OPCODES.h`. -/
  OP_QUERY : Nat
  /-- The opcode `OP_SENS_BUMP` of `OPCODES.h`. -/
  OP_SENS_BUMP : Nat
  /-- The opcode `OP_SENS_VWALL` of `OPCODES.h`. -/
  OP_SENS_VWALL : Nat
  /-- The overlay of `SensorsStatus_t` (`types.h`): the value of `sensors`
  once `sensBits.bump`, `sensBits.virtWall` and `sensBits.victim` were
  assigned, in that order of arguments. -/
  sensors : Nat → Nat → Nat → Nat
  /-- Whether `int` has 16 bits (as on the PIC): an `int16_t` compared with a
  `uint16_t` is then converted to unsigned; with a wider `int` both operands
  keep their value. -/
  int16 : Bool
  /-- Whether `bool` is a byte typedef (it then keeps the value assigned to
  it) instead of the C99 type (which keeps only zero or one). -/
  boolByte : Bool

/-- A target with the opcode numbers of the Create open interface, a 16-bit
`int`, a C99 `bool` and a status overlay of two bump bits, one virtual wall
bit and one victim bit. -/
def createTarget : Target where
  OP_SENSORS := 142
  OP_SENS_DIST := 19
  OP_SENS_ANGLE := 20
  OP_DRIVE_DIRECT := 145
  OP_QUERY := 149
  OP_SENS_BUMP := 7
  OP_SENS_VWALL := 13
  sensors := fun bump virtWall victim => bump % 4 + 4 * (virtWall % 2) + 8 * (victim % 2)
  int16 := true
  boolByte := false

/-- The same target compiled with an `int` wider than 16 bits. -/
def wideTarget : Target := { createTarget with int16 := false }

/-- The comparison `a < b` of an `int16_t` with a `uint16_t`. -/
def lt_int16_uint16 (t : Target) (a : Int) (b : Nat) : Bool :=
  if t.int16 then decide (toUInt16 a < b) else decide (a < (b : Int))

/-! ## Hardware state -/

/-- The serial link and the display.  -/
structure Board where
  /-- Bytes the robot sends, in order of arrival. -/
  rx : Nat → Nat
  /-- Number of bytes already received. -/
  pos : Nat
  /-- Bytes sent to the robot so far, oldest first. -/
  tx : List Nat
  /-- Values printed on the display so far, oldest first. -/
  lcd : List (Int × TLCDPOS)

/-- Modelled from the spec: `USART.c` is absent; a write transmits one byte,
synchronously and unbuffered. -/
def USART_OutChar (c : Nat) (b : Board) : Board :=
  { b with tx := b.tx ++ [c] }

/-- Modelled from the spec: `USART.c` is absent; a read takes the next byte
of the incoming stream. -/
def USART_InChar (b : Board) : Nat × Board :=
  (b.rx b.pos % 256, { b with pos := b.pos + 1 })

/-- Modelled from the spec: `LCD.c` is absent; the display primitive shows a
value in a region, fire and forget. -/
def LCD_Print (v : Int) (p : TLCDPOS) (b : Board) : Board :=
  { b with lcd := b.lcd ++ [(v, p)] }

/-! ## MOVE.c -/

/-- The routine `MOVE_DirectDrive`: opcode, then right wheel high/low, left wheel high/low. -/
def MOVE_DirectDrive (t : Target) (leftWheelVel rightWheelVel : Int) (b : Board) : Board :=
  let rightBytes := int16union_t.store rightWheelVel
  let leftBytes := int16union_t.store leftWheelVel
  let b := USART_OutChar t.OP_DRIVE_DIRECT b
  let b := USART_OutChar rightBytes.Hi b
  let b := USART_OutChar rightBytes.Lo b
  let b := USART_OutChar leftBytes.Hi b
  USART_OutChar leftBytes.Lo b

/-- The routine `MOVE_CheckSensor`: the return value and the board afterwards. -/
def MOVE_CheckSensor (t : Target) (b : Board) : Bool × Board :=
  let b := USART_OutChar t.OP_QUERY b
  let b := USART_OutChar 2 b
  let b := USART_OutChar t.OP_SENS_BUMP b
  let b := USART_OutChar t.OP_SENS_VWALL b
  let r := USART_InChar b
  let bump := r.1 &&& 0b00000011
  let r := USART_InChar r.2
  let virtWall := r.1
  let victim := 0
  (decide (t.sensors bump virtWall victim > 0), r.2)

/-- Locals of a motion routine when its loop has exited, and the board after
the final stop command. -/
structure MoveExit where
  /-- The returned `sensorTrig`. -/
  sensorTrig : Bool
  /-- The accumulator (`distanceTravelled` or `angleMoved`) at loop exit. -/
  moved : Int
  /-- The hardware after the routine. -/
  board : Board

/-- The `while` loop of `MOVE_Straight`. -/
def MOVE_Straight_loop (t : Target) (velocity : Int) (distance : Nat) (fuel : Nat)
    (distanceTravelled : Int) (sensorTrig : Bool) (b : Board) : Option (Int × Bool × Board) :=
  if lt_int16_uint16 t distanceTravelled distance && !sensorTrig then
    match fuel with
    | 0 => none
    | fuel + 1 =>
      let b := USART_OutChar t.OP_SENSORS b
      let b := USART_OutChar t.OP_SENS_DIST b
      let hi := USART_InChar b
      let lo := USART_InChar hi.2
      let distanceTravelled :=
        if velocity ≥ 0 then toInt16 (distanceTravelled + rxdata_int16 hi.1 lo.1)
        else toInt16 (distanceTravelled + rxdata_int16 hi.1 lo.1 * -1)
      let s := MOVE_CheckSensor t lo.2
      MOVE_Straight_loop t velocity distance fuel distanceTravelled s.1 s.2
  else some (distanceTravelled, sensorTrig, b)

/-- The routine `MOVE_Straight(velocity, distance)`. -/
def MOVE_Straight (t : Target) (fuel : Nat) (velocity : Int) (distance : Nat) (b : Board) :
    Option MoveExit :=
  let b := USART_OutChar t.OP_SENSORS b
  let b := USART_OutChar t.OP_SENS_DIST b
  let b := (USART_InChar b).2
  let b := (USART_InChar b).2
  let b := MOVE_DirectDrive t velocity velocity b
  (MOVE_Straight_loop t velocity distance fuel 0 false b).map fun r =>
    { sensorTrig := r.2.1, moved := r.1, board := MOVE_DirectDrive t 0 0 r.2.2 }

/-- The `while` loop of `MOVE_Rotate`. -/
def MOVE_Rotate_loop (t : Target) (angle : Nat) (dir : TDIRECTION) (fuel : Nat)
    (angleMoved : Int) (sensorTrig : Bool) (b : Board) : Option (Int × Bool × Board) :=
  if lt_int16_uint16 t angleMoved angle && !sensorTrig then
    match fuel with
    | 0 => none
    | fuel + 1 =>
      let b := USART_OutChar t.OP_SENSORS b
      let b := USART_OutChar t.OP_SENS_ANGLE b
      let hi := USART_InChar b
      let lo := USART_InChar hi.2
      let angleMoved :=
        if dir = TDIRECTION.DIR_CCW then toInt16 (angleMoved + rxdata_int16 hi.1 lo.1)
        else toInt16 (angleMoved + rxdata_int16 hi.1 lo.1 * -1)
      let s := MOVE_CheckSensor t lo.2
      MOVE_Rotate_loop t angle dir fuel angleMoved s.1 s.2
  else some (angleMoved, sensorTrig, b)

/-- The routine `MOVE_Rotate(velocity, angle, dir)`. -/
def MOVE_Rotate (t : Target) (fuel : Nat) (velocity angle : Nat) (dir : TDIRECTION)
    (b : Board) : Option MoveExit :=
  let b := USART_OutChar t.OP_SENSORS b
  let b := USART_OutChar t.OP_SENS_ANGLE b
  let b := (USART_InChar b).2
  let b := (USART_InChar b).2
  let b :=
    if dir = TDIRECTION.DIR_CCW then
      MOVE_DirectDrive t (toInt16 ((velocity : Int) * -1)) (toInt16 velocity) b
    else
      MOVE_DirectDrive t (toInt16 velocity) (toInt16 ((velocity : Int) * -1)) b
  (MOVE_Rotate_loop t angle dir fuel 0 false b).map fun r =>
    { sensorTrig := r.2.1, moved := r.1, board := MOVE_DirectDrive t 0 0 r.2.2 }

/-! ## IROBOT.c -/

/-- The constant `#define OP_START 128`. -/
def OP_START : Nat := 128
/-- The constant `#define OP_FULL 132`. -/
def OP_FULL : Nat := 132
/-- The constant `#define OP_DRIVE_DIRECT 145`. -/
def OP_DRIVE_DIRECT : Nat := 145
/-- The constant `#define OP_SENSORS 142`. -/
def OP_SENSORS : Nat := 142
/-- The constant `#define OP_SENS_DIST 19`. -/
def OP_SENS_DIST : Nat := 19
/-- The constant `#define OP_SENS_ANGLE 20`. -/
def OP_SENS_ANGLE : Nat := 20
/-- The constant `#define OP_SENS_GROUP 1`. -/
def OP_SENS_GROUP : Nat := 1

/-- The routine `IROBOT_Start`. -/
def IROBOT_Start (b : Board) : Board :=
  USART_OutChar OP_FULL (USART_OutChar OP_START b)

/-- The routine `drive` of `IROBOT.c`. -/
def drive (leftWheelVel rightWheelVel : Int) (b : Board) : Board :=
  let rightBytes := int16union_t.store rightWheelVel
  let leftBytes := int16union_t.store leftWheelVel
  let b := USART_OutChar OP_DRIVE_DIRECT b
  let b := USART_OutChar rightBytes.Hi b
  let b := USART_OutChar rightBytes.Lo b
  let b := USART_OutChar leftBytes.Hi b
  USART_OutChar leftBytes.Lo b

/-- Assignment of a byte value to a `bool` object: the stored value. -/
def boolStore (t : Target) (v : Nat) : Nat :=
  if t.boolByte then v % 256 else (if v = 0 then 0 else 1)

/-- The routine `sensorTriggered` of `IROBOT.c`: the returned value as a truth value, and
the board after the ten reads. -/
def sensorTriggered (t : Target) (b : Board) : Bool × Board :=
  let b := USART_OutChar OP_SENSORS b
  let b := USART_OutChar OP_SENS_GROUP b
  let r := USART_InChar b                                   -- packet 7
  let sensorTriggered := boolStore t (r.1 &&& 0b00000011)
  let r := USART_InChar r.2                                 -- packet 8
  let r := USART_InChar r.2                                 -- packet 9
  let sensorTriggered := boolStore t (sensorTriggered &&& r.1)
  let r := USART_InChar r.2                                 -- packet 10
  let sensorTriggered := boolStore t (sensorTriggered &&& r.1)
  let r := USART_InChar r.2                                 -- packet 11
  let sensorTriggered := boolStore t (sensorTriggered &&& r.1)
  let r := USART_InChar r.2                                 -- packet 12
  let sensorTriggered := boolStore t (sensorTriggered &&& r.1)
  let r := USART_InChar r.2                                 -- packet 13
  let r := USART_InChar r.2                                 -- packet 14
  let r := USART_InChar r.2                                 -- packets 15-16
  let r := USART_InChar r.2
  (decide (sensorTriggered ≠ 0), r.2)

/-- The `while` loop of `IROBOT_DriveStraight`; `sensorTriggered` is only
called when the distance test has passed. -/
def IROBOT_DriveStraight_loop (t : Target) (dist : Int) (fuel : Nat)
    (distanceTravelled : Int) (b : Board) : Option (Int × Board) :=
  if distanceTravelled < dist then
    let s := sensorTriggered t b
    if !s.1 then
      match fuel with
      | 0 => none
      | fuel + 1 =>
        let b := USART_OutChar OP_SENSORS s.2
        let b := USART_OutChar OP_SENS_DIST b
        let hi := USART_InChar b
        let lo := USART_InChar hi.2
        let distanceTravelled := toInt16 (distanceTravelled + rxdata_int16 hi.1 lo.1)
        let b := LCD_Print distanceTravelled TLCDPOS.BM_LEFT lo.2
        IROBOT_DriveStraight_loop t dist fuel distanceTravelled b
    else some (distanceTravelled, s.2)
  else some (distanceTravelled, b)

/-- The routine `IROBOT_DriveStraight(dist)`: the accumulator at loop exit and the board. -/
def IROBOT_DriveStraight (t : Target) (fuel : Nat) (dist : Int) (b : Board) :
    Option (Int × Board) :=
  let b := USART_OutChar OP_SENSORS b
  let b := USART_OutChar OP_SENS_DIST b
  let b := (USART_InChar b).2
  let b := (USART_InChar b).2
  let b := drive 200 200 b
  (IROBOT_DriveStraight_loop t dist fuel 0 b).map fun r => (r.1, drive 0 0 r.2)

/-- The `while` loop of `rotateRobot`. -/
def rotateRobot_loop (t : Target) (angle : Nat) (dir : TDIRECTION) (fuel : Nat)
    (angleMoved : Int) (b : Board) : Option (Int × Board) :=
  if lt_int16_uint16 t angleMoved angle then
    let s := sensorTriggered t b
    if !s.1 then
      match fuel with
      | 0 => none
      | fuel + 1 =>
        let b := USART_OutChar OP_SENSORS s.2
        let b := USART_OutChar OP_SENS_ANGLE b
        let hi := USART_InChar b
        let lo := USART_InChar hi.2
        let angleMoved :=
          if dir = TDIRECTION.DIR_CCW then toInt16 (angleMoved + rxdata_int16 hi.1 lo.1)
          else toInt16 (angleMoved + rxdata_int16 hi.1 lo.1 * -1)
        let b := LCD_Print angleMoved TLCDPOS.BM_RIGHT lo.2
        rotateRobot_loop t angle dir fuel angleMoved b
    else some (angleMoved, s.2)
  else some (angleMoved, b)

/-- The routine `rotateRobot(angle, dir)`: the accumulator at loop exit and the board. -/
def rotateRobot (t : Target) (fuel : Nat) (angle : Nat) (dir : TDIRECTION) (b : Board) :
    Option (Int × Board) :=
  let b := USART_OutChar OP_SENSORS b
  let b := USART_OutChar OP_SENS_ANGLE b
  let b := (USART_InChar b).2
  let b := (USART_InChar b).2
  let b :=
    if dir = TDIRECTION.DIR_CCW then drive (-210) 210 b
    else drive 210 (-210) b
  (rotateRobot_loop t angle dir fuel 0 b).map fun r => (r.1, drive 0 0 r.2)

/-- The `for` loop of `IROBOT_DriveSquare`, with `k` iterations left.  The
delay between legs changes no state. -/
def IROBOT_DriveSquare_for (t : Target) (fuel : Nat) : Nat → Board → Option Board
  | 0, b => some b
  | k + 1, b =>
    (IROBOT_DriveStraight t fuel 1000 b).bind fun r =>
      (rotateRobot t fuel 90 TDIRECTION.DIR_CCW r.2).bind fun r =>
        IROBOT_DriveSquare_for t fuel k r.2

/-- The routine `IROBOT_DriveSquare`. -/
def IROBOT_DriveSquare (t : Target) (fuel : Nat) (b : Board) : Option Board :=
  IROBOT_DriveSquare_for t fuel 4 b

/-! ## The sweep of IROBOT.c -/

/-- The peripherals of the sweep: the stepper driver (state `σ`), the IR
sensor and the display. -/
structure Sweep (σ : Type) where
  /-- State of the stepper driver. -/
  sm : σ
  /-- Readings `IR_Measure` returns, in order. -/
  ir : Nat → ℚ
  /-- Number of readings already taken. -/
  irPos : Nat
  /-- Values printed on the display so far, oldest first. -/
  lcd : List (Int × TLCDPOS)

/-- Modelled from the spec: `IR.c` is absent; sampling returns a single
distance reading. -/
def IR_Measure {σ : Type} (s : Sweep σ) : ℚ × Sweep σ :=
  (s.ir s.irPos, { s with irPos := s.irPos + 1 })

/-- The conversion `(int) data`: truncation toward zero. -/
def truncInt (q : ℚ) : Int := if 0 ≤ q then ⌊q⌋ else ⌈q⌉

/-- Locals of `IROBOT_Scan360` when its `for` loop is left. -/
structure ScanLocals (σ : Type) where
  /-- The local `orientation`. -/
  orientation : Nat
  /-- The local `closestObject`. -/
  closestObject : Nat
  /-- The local `smallestIR`. -/
  smallestIR : ℚ
  /-- The peripherals. -/
  sweep : Sweep σ

/-- The `for` loop of `IROBOT_Scan360` with `n` iterations left; `SM_Move` is
the stepper driver of `SM.c`, which is absent and therefore an argument. -/
def IROBOT_Scan360_for {σ : Type} (SM_Move : Nat → TDIRECTION → σ → Nat × σ) :
    Nat → Nat → Nat → ℚ → Sweep σ → ScanLocals σ
  | 0, orientation, closestObject, smallestIR, s =>
    { orientation := orientation, closestObject := closestObject,
      smallestIR := smallestIR, sweep := s }
  | n + 1, orientation, closestObject, smallestIR, s =>
    let r := IR_Measure s
    let data := r.1
    let smallestIR' := if data < smallestIR then data else smallestIR
    let closestObject' := if data < smallestIR then orientation else closestObject
    let m := SM_Move 1 TDIRECTION.DIR_CW r.2.sm
    let s := { r.2 with sm := m.2 }
    let s := { s with lcd := s.lcd ++ [(truncInt data, TLCDPOS.TOP_RIGHT)] }
    IROBOT_Scan360_for SM_Move n m.1 closestObject' smallestIR' s

/-- The expression `((stepsFor360 - 1) + offset - closestObject) % stepsFor360`
on `uint16_t` operands, stored into a `uint16_t`.  With a 16-bit `int` every
operation is unsigned and wraps; with a wider `int` the operands are promoted,
the remainder truncates toward zero and the result is converted back. -/
def stepsBack (t : Target) (stepsFor360 offset closestObject : Nat) : Nat :=
  if t.int16 then
    toUInt16 ((toUInt16 ((toUInt16 ((stepsFor360 : Int) - 1) : Int) + offset) : Int)
      - closestObject) % stepsFor360
  else
    toUInt16 (Int.tmod ((stepsFor360 : Int) - 1 + offset - closestObject) stepsFor360)

/-- What `IROBOT_Scan360` leaves behind. -/
structure ScanExit (σ : Type) where
  /-- The local `offset`. -/
  offset : Nat
  /-- The local `closestObject` after the loop. -/
  closestObject : Nat
  /-- The local `stepsBack`. -/
  stepsBack : Nat
  /-- The orientation the last `SM_Move` reported. -/
  orientation : Nat
  /-- The peripherals afterwards. -/
  sweep : Sweep σ

/-- The routine `IROBOT_Scan360`.  `SM_F_STEPS_FOR_180` is the constant of `SM.c`,
`closestObject` the indeterminate initial content of that local. -/
def IROBOT_Scan360 {σ : Type} (t : Target) (SM_F_STEPS_FOR_180 : Nat)
    (SM_Move : Nat → TDIRECTION → σ → Nat × σ) (closestObject : Nat) (s : Sweep σ) :
    ScanExit σ :=
  let stepsFor360 := toUInt16 ((SM_F_STEPS_FOR_180 : Int) * 2)
  let smallestIR : ℚ := 4000
  let m := SM_Move 0 TDIRECTION.DIR_CW s.sm
  let orientation := m.1
  let offset := orientation
  let s := { s with sm := m.2 }
  let r := IROBOT_Scan360_for SM_Move stepsFor360 orientation closestObject smallestIR s
  let stepsBack := stepsBack t stepsFor360 offset r.closestObject
  let m := SM_Move stepsBack TDIRECTION.DIR_CCW r.sweep.sm
  { offset := offset, closestObject := r.closestObject, stepsBack := stepsBack,
    orientation := m.1, sweep := { r.sweep with sm := m.2 } }

/-- Modelled from the spec: `SM.c` is absent; the actuator keeps an absolute
orientation in `[0, S)`, a clockwise move advances it by the step count modulo
`S`, a counter-clockwise move takes it back by the step count modulo `S`, and
the move reports the new orientation. -/
def SM_Move (S : Nat) (steps : Nat) (dir : TDIRECTION) (orientation : Nat) : Nat × Nat :=
  match dir with
  | TDIRECTION.DIR_CW => ((orientation + steps) % S, (orientation + steps) % S)
  | TDIRECTION.DIR_CCW =>
    ((orientation + (S - steps % S)) % S, (orientation + (S - steps % S)) % S)

/-- Orientation reported for sample `i` of a sweep that starts with the
reported orientation `orientation` and driver state `sm`, and the driver state
then: each sample is followed by one clockwise half-step. -/
def sampleOrientation {σ : Type} (SM_Move : Nat → TDIRECTION → σ → Nat × σ)
    (orientation : Nat) (sm : σ) : Nat → Nat × σ
  | 0 => (orientation, sm)
  | i + 1 => SM_Move 1 TDIRECTION.DIR_CW (sampleOrientation SM_Move orientation sm i).2

/-- A sweep state over the modelled actuator: orientation `o`, the readings
of the list first and `fill` after them. -/
def sweepOf (o : Nat) (readings : List ℚ) (fill : ℚ) : Sweep Nat :=
  { sm := o, ir := fun i => readings.getD i fill, irPos := 0, lcd := [] }

/-! ## Vocabulary of the statements -/

/-- The raw signed 16-bit delta a telemetry poll decodes when its two bytes
are the bytes `q` and `q + 1` of the incoming stream. -/
def rawDelta (rx : Nat → Nat) (q : Nat) : Int :=
  rxdata_int16 (rx q % 256) (rx (q + 1) % 256)

/-- Sum of the `n` raw deltas read at the positions `q`, `q + stride`,
`q + 2 * stride`, ... of the incoming stream. -/
def rawSum (rx : Nat → Nat) (stride : Nat) : Nat → Nat → Int
  | _, 0 => 0
  | q, n + 1 => rawDelta rx q + rawSum rx stride (q + stride) n

/-- Sign with which a raw angle delta enters the accumulator. -/
def dirSign (dir : TDIRECTION) : Int :=
  if dir = TDIRECTION.DIR_CCW then 1 else -1

/-- What `MOVE_CheckSensor` returns when the two status bytes it reads are the
bytes `q` and `q + 1` of the incoming stream of `b`. -/
def sensorTripAt (t : Target) (b : Board) (q : Nat) : Bool :=
  (MOVE_CheckSensor t { b with pos := q }).1

/-- The bytes one iteration of the loop of `MOVE_Straight` writes: the
distance query, then the sensor query of `MOVE_CheckSensor`. -/
def pollBytes (t : Target) : List Nat :=
  [t.OP_SENSORS, t.OP_SENS_DIST, t.OP_QUERY, 2, t.OP_SENS_BUMP, t.OP_SENS_VWALL]

/-- The board after `n` iterations of the loop of `MOVE_Straight`: four bytes
read and `pollBytes` written per iteration. -/
def afterPolls (t : Target) (b : Board) (n : Nat) : Board :=
  { b with pos := b.pos + 4 * n, tx := b.tx ++ (List.replicate n (pollBytes t)).flatten }

/-- One side of the square: the straight leg of `dist` mm, then the turn by
`angle` degrees in direction `dir`, keeping the board only. -/
def legThenTurn (t : Target) (fuel : Nat) (dist : Int) (angle : Nat) (dir : TDIRECTION)
    (b : Board) : Option Board :=
  (IROBOT_DriveStraight t fuel dist b).bind fun r =>
    (rotateRobot t fuel angle dir r.2).map fun r => r.2

/-- What `sensorTriggered` returns when the ten bytes of the group response
are the bytes `q .. q + 9` of the incoming stream `rx`. -/
def groupTripAt (t : Target) (rx : Nat → Nat) (q : Nat) : Bool :=
  (sensorTriggered t { rx := rx, pos := q, tx := [], lcd := [] }).1

/-- The five bytes of the direct-drive command `drive` sends. -/
def driveBytes (leftWheelVel rightWheelVel : Int) : List Nat :=
  [OP_DRIVE_DIRECT, (int16union_t.store rightWheelVel).Hi, (int16union_t.store rightWheelVel).Lo,
    (int16union_t.store leftWheelVel).Hi, (int16union_t.store leftWheelVel).Lo]

/-- Bytes a motion routine of `IROBOT.c` writes when its loop polls `polls`
times: the baseline query of packet `query`, the wheel command, per iteration
the sensor-group query and the telemetry query, one more sensor-group query
when the loop is left because a sensor tripped, and the stop command. -/
def routineTx (query : Nat) (leftWheelVel rightWheelVel : Int) (polls : Nat)
    (tripped : Bool) : List Nat :=
  [OP_SENSORS, query] ++ driveBytes leftWheelVel rightWheelVel ++
    (List.replicate polls [OP_SENSORS, OP_SENS_GROUP, OP_SENSORS, query]).flatten ++
    (if tripped then [OP_SENSORS, OP_SENS_GROUP] else []) ++ driveBytes 0 0

/-- Bytes of a straight leg: distance telemetry, both wheels at 200 mm/s. -/
def legTx (polls : Nat) (tripped : Bool) : List Nat :=
  routineTx OP_SENS_DIST 200 200 polls tripped

/-- Bytes of a turn: angle telemetry, wheels at 210 mm/s in opposite senses,
the left one backwards for a counter-clockwise turn. -/
def turnTx (dir : TDIRECTION) (polls : Nat) (tripped : Bool) : List Nat :=
  if dir = TDIRECTION.DIR_CCW then routineTx OP_SENS_ANGLE (-210) 210 polls tripped
  else routineTx OP_SENS_ANGLE 210 (-210) polls tripped

/-- Number of bytes a motion routine of `IROBOT.c` reads: two baseline bytes,
twelve per iteration (sensor group, then telemetry), ten more when the loop
is left because a sensor tripped. -/
def routineLen (polls : Nat) (tripped : Bool) : Nat :=
  2 + 12 * polls + (if tripped then 10 else 0)

/-- A loop of a motion routine of `IROBOT.c` that starts at stream position `q`
with accumulator `a` runs `n` iterations and is then left, by a sensor when
`tripped` and by its target otherwise.  The accumulator after `i` polls is
`toInt16 (a + sign * (d1 + ... + di))`, `go` is the test of the accumulator
against the target: before each of the `n` polls the test passes and the
sensor group is clear; at the end either the test still passes and the sensor
group reports a trip, or the test fails. -/
def loopEnds (t : Target) (rx : Nat → Nat) (q : Nat) (a sign : Int) (go : Int → Bool)
    (n : Nat) (tripped : Bool) : Prop :=
  (∀ i, i < n → go (toInt16 (a + sign * rawSum rx 12 (q + 10) i)) = true ∧
    groupTripAt t rx (q + 12 * i) = false) ∧
  (tripped = true → go (toInt16 (a + sign * rawSum rx 12 (q + 10) n)) = true ∧
    groupTripAt t rx (q + 12 * n) = true) ∧
  (tripped = false → go (toInt16 (a + sign * rawSum rx 12 (q + 10) n)) = false)

instance loopEnds.instDecidable (t : Target) (rx : Nat → Nat) (q : Nat) (a sign : Int)
    (go : Int → Bool) (n : Nat) (tripped : Bool) :
    Decidable (loopEnds t rx q a sign go n tripped) :=
  inferInstanceAs (Decidable (
    (∀ i, i < n → go (toInt16 (a + sign * rawSum rx 12 (q + 10) i)) = true ∧
      groupTripAt t rx (q + 12 * i) = false) ∧
    (tripped = true → go (toInt16 (a + sign * rawSum rx 12 (q + 10) n)) = true ∧
      groupTripAt t rx (q + 12 * n) = true) ∧
    (tripped = false → go (toInt16 (a + sign * rawSum rx 12 (q + 10) n)) = false)))

/-- A straight leg towards `dist` mm that starts at stream position `p` polls
`n` times and ends on a sensor (`tripped`) or with at least `dist` covered. -/
def legEnds (t : Target) (rx : Nat → Nat) (p : Nat) (dist : Int) (n : Nat)
    (tripped : Bool) : Prop :=
  loopEnds t rx (p + 2) 0 1 (fun a => decide (a < dist)) n tripped

/-- A turn towards `angle` degrees in direction `dir` that starts at stream
position `p` polls `n` times and ends on a sensor (`tripped`) or with the
angle no longer below `angle`. -/
def turnEnds (t : Target) (rx : Nat → Nat) (p : Nat) (angle : Nat) (dir : TDIRECTION)
    (n : Nat) (tripped : Bool) : Prop :=
  loopEnds t rx (p + 2) 0 (dirSign dir) (fun a => lt_int16_uint16 t a angle) n tripped

instance legEnds.instDecidable (t : Target) (rx : Nat → Nat) (p : Nat) (dist : Int) (n : Nat)
    (tripped : Bool) : Decidable (legEnds t rx p dist n tripped) :=
  inferInstanceAs (Decidable (loopEnds t rx (p + 2) 0 1 (fun a => decide (a < dist)) n tripped))

instance turnEnds.instDecidable (t : Target) (rx : Nat → Nat) (p : Nat) (angle : Nat)
    (dir : TDIRECTION) (n : Nat) (tripped : Bool) :
    Decidable (turnEnds t rx p angle dir n tripped) :=
  inferInstanceAs (Decidable (loopEnds t rx (p + 2) 0 (dirSign dir)
    (fun a => lt_int16_uint16 t a angle) n tripped))

/-- How one side of the square went: the polls of its leg and of its turn, and
whether a sensor ended them. -/
structure Side where
  /-- Distance polls of the leg. -/
  legPolls : Nat
  /-- Whether a sensor ended the leg. -/
  legTripped : Bool
  /-- Angle polls of the turn. -/
  turnPolls : Nat
  /-- Whether a sensor ended the turn. -/
  turnTripped : Bool
deriving DecidableEq, Repr

/-- Bytes written on one side: the leg, then the turn. -/
def Side.tx (dir : TDIRECTION) (s : Side) : List Nat :=
  legTx s.legPolls s.legTripped ++ turnTx dir s.turnPolls s.turnTripped

/-- Bytes read on one side. -/
def Side.len (s : Side) : Nat :=
  routineLen s.legPolls s.legTripped + routineLen s.turnPolls s.turnTripped

/-- The sides of the list are run one after the other from stream position
`p`: on each, a leg towards `dist`, then a turn towards `angle` in direction
`dir` that starts where the leg stopped reading. -/
def sidesRun (t : Target) (rx : Nat → Nat) (dist : Int) (angle : Nat) (dir : TDIRECTION) :
    Nat → List Side → Prop
  | _, [] => True
  | p, s :: rest =>
    legEnds t rx p dist s.legPolls s.legTripped ∧
    turnEnds t rx (p + routineLen s.legPolls s.legTripped) angle dir s.turnPolls
      s.turnTripped ∧
    sidesRun t rx dist angle dir (p + s.len) rest

/-- Deciding `sidesRun`, side by side. -/
def sidesRun.decide (t : Target) (rx : Nat → Nat) (dist : Int) (angle : Nat)
    (dir : TDIRECTION) : (p : Nat) → (sides : List Side) →
    Decidable (sidesRun t rx dist angle dir p sides)
  | _, [] => isTrue trivial
  | p, s :: rest =>
    have := sidesRun.decide t rx dist angle dir (p + s.len) rest
    inferInstanceAs (Decidable (
      legEnds t rx p dist s.legPolls s.legTripped ∧
      turnEnds t rx (p + routineLen s.legPolls s.legTripped) angle dir s.turnPolls
        s.turnTripped ∧
      sidesRun t rx dist angle dir (p + s.len) rest))

instance sidesRun.instDecidable (t : Target) (rx : Nat → Nat) (dist : Int) (angle : Nat)
    (dir : TDIRECTION) (p : Nat) (sides : List Side) :
    Decidable (sidesRun t rx dist angle dir p sides) :=
  sidesRun.decide t rx dist angle dir p sides

/-! ## Sample inputs -/

/-- A board whose robot answers each side of the square the same way: two
baseline bytes, a clear ten-byte sensor group, the delta 1000 (`0x03 0xE8`),
then for the turn two baseline bytes, a clear sensor group and the delta 90. -/
def squareBoard : Board :=
  { rx := fun i =>
      [0, 0, 0, 0, 0, 0, 0, 0, 0, 0, 0, 0, 3, 232,
       0, 0, 0, 0, 0, 0, 0, 0, 0, 0, 0, 0, 0, 90].getD (i % 28) 0,
    pos := 0, tx := [], lcd := [] }

/-- A board that has sent and received nothing yet and will receive the bytes
of the list, then zeros. -/
def boardOf (bytes : List Nat) : Board :=
  { rx := fun i => bytes.getD i 0, pos := 0, tx := [], lcd := [] }

/-- A board that has sent and received nothing yet and whose robot answers
every distance poll of `MOVE_Straight` with the delta `d` and every sensor
query with a clear status: after the two baseline bytes the stream repeats the
high and low byte of `d` followed by two zero bytes. -/
def steadyBoard (d : Nat) : Board :=
  { rx := fun i => if i % 4 = 2 then d / 256 % 256 else if i % 4 = 3 then d % 256 else 0,
    pos := 0, tx := [], lcd := [] }

/-! ## Lemmas on the overlay -/

theorem toInt16_of_range {x : Int} (h1 : -32768 ≤ x) (h2 : x ≤ 32767) : toInt16 x = x := by
  unfold toInt16
  omega

theorem toInt16_range (x : Int) : -32768 ≤ toInt16 x ∧ toInt16 x ≤ 32767 := by
  unfold toInt16
  omega

theorem uint16union_l_eq (hi lo : Nat) :
    uint16union_t.l { Hi := hi, Lo := lo } = (hi % 256) * 256 + lo % 256 := by
  have h : (hi % 256) <<< 8 = 2 ^ 8 * (hi % 256) := by
    rw [Nat.shiftLeft_eq, Nat.mul_comm]
  have hlt : lo % 256 < 2 ^ 8 := Nat.mod_lt lo (by norm_num)
  show (hi % 256) <<< 8 ||| lo % 256 = hi % 256 * 256 + lo % 256
  rw [h, ← Nat.mul_add_lt_is_or hlt]
  omega

theorem store_Hi (v : Int) : (int16union_t.store v).Hi = toUInt16 v / 256 % 256 := by
  show (toUInt16 v >>> 8) &&& 0xFF = _
  rw [Nat.shiftRight_eq_div_pow, show (0xFF : Nat) = 2 ^ 8 - 1 by norm_num,
    Nat.and_pow_two_sub_one_eq_mod]

theorem store_Lo (v : Int) : (int16union_t.store v).Lo = toUInt16 v % 256 := by
  show toUInt16 v &&& 0xFF = _
  rw [show (0xFF : Nat) = 2 ^ 8 - 1 by norm_num, Nat.and_pow_two_sub_one_eq_mod]

theorem rxdata_int16_eq (hi lo : Nat) :
    rxdata_int16 hi lo = toInt16 (((hi % 256) * 256 + lo % 256 : Nat) : Int) := by
  unfold rxdata_int16
  rw [uint16union_l_eq]

theorem toUInt16_cast (x : Int) : ((toUInt16 x : Nat) : Int) = x % 65536 := by
  unfold toUInt16
  omega

theorem store_roundtrip (v : Int) (h1 : -32768 ≤ v) (h2 : v ≤ 32767) :
    rxdata_int16 (int16union_t.store v).Hi (int16union_t.store v).Lo = v := by
  rw [rxdata_int16_eq, store_Hi, store_Lo]
  have h := toUInt16_cast v
  unfold toInt16
  omega

theorem store_Hi_asr (v : Int) :
    ((int16union_t.store v).Hi : Int) = (v >>> (8 : Nat)) % 256 := by
  rw [store_Hi, Int.shiftRight_eq_div_pow]
  have h := toUInt16_cast v
  norm_num
  omega

theorem store_Lo_mask (v : Int) : ((int16union_t.store v).Lo : Int) = v % 256 := by
  rw [store_Lo]
  have h := toUInt16_cast v
  omega

theorem MOVE_DirectDrive_tx (t : Target) (l r : Int) (b : Board) :
    (MOVE_DirectDrive t l r b).tx = b.tx ++ [t.OP_DRIVE_DIRECT, (int16union_t.store r).Hi,
      (int16union_t.store r).Lo, (int16union_t.store l).Hi, (int16union_t.store l).Lo] := by
  simp [MOVE_DirectDrive, USART_OutChar]

theorem drive_tx (l r : Int) (b : Board) :
    (drive l r b).tx = b.tx ++ [OP_DRIVE_DIRECT, (int16union_t.store r).Hi,
      (int16union_t.store r).Lo, (int16union_t.store l).Hi, (int16union_t.store l).Lo] := by
  simp [drive, USART_OutChar]

/-! ## C1: the 16-bit codec -/

/-- C1: for every signed 16-bit wheel velocity pair, `MOVE_DirectDrive` and
`drive` send the opcode followed by the high and low byte of the right and of
the left velocity, the high byte being the arithmetic shift right by 8 reduced
to a byte and the low byte the value reduced to a byte; decoding either byte
pair the way the telemetry read does (`(int16_t) rxdata.l` after storing `Hi`
then `Lo`) gives the velocity back. -/
theorem C1_encode_decode_roundtrip (t : Target) (l r : Int) (b : Board)
    (hl : -32768 ≤ l ∧ l ≤ 32767) (hr : -32768 ≤ r ∧ r ≤ 32767) :
    ∃ rh rl lh ll : Nat,
      (MOVE_DirectDrive t l r b).tx = b.tx ++ [t.OP_DRIVE_DIRECT, rh, rl, lh, ll] ∧
      (drive l r b).tx = b.tx ++ [OP_DRIVE_DIRECT, rh, rl, lh, ll] ∧
      (rh : Int) = (r >>> (8 : Nat)) % 256 ∧ (rl : Int) = r % 256 ∧
      (lh : Int) = (l >>> (8 : Nat)) % 256 ∧ (ll : Int) = l % 256 ∧
      rxdata_int16 rh rl = r ∧ rxdata_int16 lh ll = l :=
  ⟨_, _, _, _, MOVE_DirectDrive_tx t l r b, drive_tx l r b, store_Hi_asr r, store_Lo_mask r,
    store_Hi_asr l, store_Lo_mask l, store_roundtrip r hr.1 hr.2, store_roundtrip l hl.1 hl.2⟩

/-- C1 at the wheel velocities `-200` (left) and `500` (right). -/
theorem C1_encode_decode_roundtrip_witness :
    ((-32768 : Int) ≤ -200 ∧ (-200 : Int) ≤ 32767) ∧ ((-32768 : Int) ≤ 500 ∧ (500 : Int) ≤ 32767) ∧
    ∃ rh rl lh ll : Nat,
      (MOVE_DirectDrive createTarget (-200) 500 (boardOf [])).tx
        = (boardOf []).tx ++ [createTarget.OP_DRIVE_DIRECT, rh, rl, lh, ll] ∧
      (drive (-200) 500 (boardOf [])).tx = (boardOf []).tx ++ [OP_DRIVE_DIRECT, rh, rl, lh, ll] ∧
      (rh : Int) = ((500 : Int) >>> (8 : Nat)) % 256 ∧ (rl : Int) = (500 : Int) % 256 ∧
      (lh : Int) = ((-200 : Int) >>> (8 : Nat)) % 256 ∧ (ll : Int) = (-200 : Int) % 256 ∧
      rxdata_int16 rh rl = 500 ∧ rxdata_int16 lh ll = -200 :=
  ⟨by decide, by decide,
    C1_encode_decode_roundtrip createTarget (-200) 500 (boardOf []) (by decide) (by decide)⟩

/-! ## C2: every exit path stops the wheels -/

theorem store_zero : int16union_t.store 0 = { Hi := 0, Lo := 0 } := by decide

theorem MOVE_DirectDrive_stop_tx (t : Target) (b : Board) :
    (MOVE_DirectDrive t 0 0 b).tx = b.tx ++ [t.OP_DRIVE_DIRECT, 0, 0, 0, 0] := by
  rw [MOVE_DirectDrive_tx, store_zero]

theorem MOVE_Straight_stop (t : Target) (fuel : Nat) (velocity : Int) (distance : Nat)
    (b : Board) (r : MoveExit) (h : MOVE_Straight t fuel velocity distance b = some r) :
    ∃ pre, r.board.tx = pre ++ [t.OP_DRIVE_DIRECT, 0, 0, 0, 0] := by
  unfold MOVE_Straight at h
  simp only [Option.map_eq_some'] at h
  obtain ⟨a, _, rfl⟩ := h
  exact ⟨_, MOVE_DirectDrive_stop_tx t a.2.2⟩

theorem MOVE_Rotate_stop (t : Target) (fuel : Nat) (velocity angle : Nat) (dir : TDIRECTION)
    (b : Board) (r : MoveExit) (h : MOVE_Rotate t fuel velocity angle dir b = some r) :
    ∃ pre, r.board.tx = pre ++ [t.OP_DRIVE_DIRECT, 0, 0, 0, 0] := by
  unfold MOVE_Rotate at h
  simp only [Option.map_eq_some'] at h
  obtain ⟨a, _, rfl⟩ := h
  exact ⟨_, MOVE_DirectDrive_stop_tx t a.2.2⟩

theorem lt_int16_uint16_zero (t : Target) : lt_int16_uint16 t 0 0 = false := by
  unfold lt_int16_uint16
  cases t.int16 <;> simp

theorem MOVE_Straight_loop_zero (t : Target) (velocity : Int) (fuel : Nat) (b : Board) :
    MOVE_Straight_loop t velocity 0 fuel 0 false b = some (0, false, b) := by
  unfold MOVE_Straight_loop
  simp [lt_int16_uint16_zero]

theorem MOVE_Rotate_loop_zero (t : Target) (dir : TDIRECTION) (fuel : Nat) (b : Board) :
    MOVE_Rotate_loop t 0 dir fuel 0 false b = some (0, false, b) := by
  unfold MOVE_Rotate_loop
  simp [lt_int16_uint16_zero]

/-- C2: whenever `MOVE_Straight` or `MOVE_Rotate` (either direction) returns,
on whatever velocity, target and incoming bytes, the last five bytes written
are the direct-drive opcode followed by four zero bytes, and nothing follows
them.  With target 0 both routines return without running the loop body, for
every bound on the iterations. -/
theorem C2_motion_ends_with_stop (t : Target) (fuel : Nat) (velocity : Int)
    (distance rotVelocity angle : Nat) (dir : TDIRECTION) (b : Board) (r : MoveExit)
    (h : MOVE_Straight t fuel velocity distance b = some r ∨
      MOVE_Rotate t fuel rotVelocity angle dir b = some r) :
    (∃ pre, r.board.tx = pre ++ [t.OP_DRIVE_DIRECT, 0, 0, 0, 0]) ∧
    (MOVE_Straight t fuel velocity 0 b).isSome = true ∧
    (MOVE_Rotate t fuel rotVelocity 0 dir b).isSome = true := by
  refine ⟨?_, ?_, ?_⟩
  · rcases h with h | h
    · exact MOVE_Straight_stop t fuel velocity distance b r h
    · exact MOVE_Rotate_stop t fuel rotVelocity angle dir b r h
  · simp [MOVE_Straight, MOVE_Straight_loop_zero]
  · simp [MOVE_Rotate, MOVE_Rotate_loop_zero]

/-- C2 at a straight run that a bump interrupts at the first poll. -/
theorem C2_motion_ends_with_stop_witness :
    ∃ r, MOVE_Straight createTarget 1 200 1000 (boardOf [0, 0, 0, 50, 1, 0]) = some r ∧
      r.sensorTrig = true ∧
      (∃ pre, r.board.tx = pre ++ [createTarget.OP_DRIVE_DIRECT, 0, 0, 0, 0]) ∧
      (MOVE_Straight createTarget 1 200 0 (boardOf [0, 0, 0, 50, 1, 0])).isSome = true ∧
      (MOVE_Rotate createTarget 1 210 0 TDIRECTION.DIR_CW
        (boardOf [0, 0, 0, 50, 1, 0])).isSome = true :=
  ⟨_, rfl, by decide,
    C2_motion_ends_with_stop createTarget 1 200 1000 210 90 TDIRECTION.DIR_CW
      (boardOf [0, 0, 0, 50, 1, 0]) _ (Or.inl rfl)⟩

/-! ## C3: sign of the accumulated angle -/

@[simp]
theorem USART_OutChar_rx (c : Nat) (b : Board) : (USART_OutChar c b).rx = b.rx := rfl
@[simp]
theorem USART_OutChar_pos (c : Nat) (b : Board) : (USART_OutChar c b).pos = b.pos := rfl
@[simp]
theorem USART_OutChar_lcd (c : Nat) (b : Board) : (USART_OutChar c b).lcd = b.lcd := rfl
@[simp]
theorem USART_OutChar_tx (c : Nat) (b : Board) :
    (USART_OutChar c b).tx = b.tx ++ [c] := rfl
@[simp]
theorem USART_InChar_fst (b : Board) : (USART_InChar b).1 = b.rx b.pos % 256 := rfl
@[simp]
theorem USART_InChar_rx (b : Board) : (USART_InChar b).2.rx = b.rx := rfl
@[simp]
theorem USART_InChar_pos (b : Board) : (USART_InChar b).2.pos = b.pos + 1 := rfl
@[simp]
theorem USART_InChar_tx (b : Board) : (USART_InChar b).2.tx = b.tx := rfl
@[simp]
theorem USART_InChar_lcd (b : Board) : (USART_InChar b).2.lcd = b.lcd := rfl
@[simp]
theorem LCD_Print_rx (v : Int) (p : TLCDPOS) (b : Board) :
    (LCD_Print v p b).rx = b.rx := rfl
@[simp]
theorem LCD_Print_pos (v : Int) (p : TLCDPOS) (b : Board) :
    (LCD_Print v p b).pos = b.pos := rfl
@[simp]
theorem LCD_Print_tx (v : Int) (p : TLCDPOS) (b : Board) :
    (LCD_Print v p b).tx = b.tx := rfl

@[simp]
theorem MOVE_CheckSensor_rx (t : Target) (b : Board) :
    (MOVE_CheckSensor t b).2.rx = b.rx := rfl
@[simp]
theorem MOVE_CheckSensor_pos (t : Target) (b : Board) :
    (MOVE_CheckSensor t b).2.pos = b.pos + 2 := rfl
@[simp]
theorem MOVE_CheckSensor_tx (t : Target) (b : Board) :
    (MOVE_CheckSensor t b).2.tx
      = b.tx ++ [t.OP_QUERY, 2, t.OP_SENS_BUMP, t.OP_SENS_VWALL] := by
  simp [MOVE_CheckSensor]
theorem MOVE_CheckSensor_fst (t : Target) (b : Board) :
    (MOVE_CheckSensor t b).1
      = decide (t.sensors ((b.rx b.pos % 256) &&& 3) (b.rx (b.pos + 1) % 256) 0 > 0) := rfl
@[simp]
theorem MOVE_DirectDrive_rx (t : Target) (l r : Int) (b : Board) :
    (MOVE_DirectDrive t l r b).rx = b.rx := rfl
@[simp]
theorem MOVE_DirectDrive_pos (t : Target) (l r : Int) (b : Board) :
    (MOVE_DirectDrive t l r b).pos = b.pos := rfl
@[simp]
theorem drive_rx (l r : Int) (b : Board) : (drive l r b).rx = b.rx := rfl
@[simp]
theorem drive_pos (l r : Int) (b : Board) : (drive l r b).pos = b.pos := rfl
@[simp]
theorem sensorTriggered_rx (t : Target) (b : Board) :
    (sensorTriggered t b).2.rx = b.rx := rfl
@[simp]
theorem sensorTriggered_pos (t : Target) (b : Board) :
    (sensorTriggered t b).2.pos = b.pos + 10 := rfl

theorem toInt16_idem (x : Int) : toInt16 (toInt16 x) = toInt16 x :=
  toInt16_of_range (toInt16_range x).1 (toInt16_range x).2

theorem toInt16_add_left (x y : Int) : toInt16 (toInt16 x + y) = toInt16 (x + y) := by
  unfold toInt16
  omega

theorem accumulate_eq (dir : TDIRECTION) (a x : Int) :
    (if dir = TDIRECTION.DIR_CCW then toInt16 (a + x) else toInt16 (a + x * -1))
      = toInt16 (a + dirSign dir * x) := by
  unfold dirSign
  split <;> simp

theorem MOVE_Rotate_loop_moved (t : Target) (angle : Nat) (dir : TDIRECTION) :
    ∀ (fuel : Nat) (a : Int) (trig : Bool) (b : Board) (res : Int × Bool × Board),
      toInt16 a = a → MOVE_Rotate_loop t angle dir fuel a trig b = some res →
      ∃ n, res.2.2.pos = b.pos + 4 * n ∧ res.2.2.rx = b.rx ∧
        res.1 = toInt16 (a + dirSign dir * rawSum b.rx 4 b.pos n) := by
  intro fuel
  induction fuel with
  | zero =>
    intro a trig b res ha h
    unfold MOVE_Rotate_loop at h
    split at h
    · simp at h
    · injection h with h
      subst h
      exact ⟨0, by simp, rfl, by simp [rawSum, ha]⟩
  | succ f ih =>
    intro a trig b res ha h
    unfold MOVE_Rotate_loop at h
    split at h
    · simp only [accumulate_eq] at h
      obtain ⟨n, hp, hrx, hm⟩ := ih _ _ _ _ (toInt16_idem _) h
      refine ⟨n + 1, ?_, ?_, ?_⟩
      · rw [hp]; simp; omega
      · rw [hrx]; simp
      · rw [hm, toInt16_add_left]
        simp only [MOVE_CheckSensor_rx, MOVE_CheckSensor_pos, USART_InChar_rx, USART_InChar_pos,
          USART_OutChar_rx, USART_OutChar_pos, USART_InChar_fst, rawSum, rawDelta]
        congr 1
        have : b.pos + 1 + 1 + 2 = b.pos + 4 := by omega
        rw [this]
        ring
    · injection h with h
      subst h
      exact ⟨0, by simp, rfl, by simp [rawSum, ha]⟩

theorem rotateRobot_loop_zero (t : Target) (angle : Nat) (dir : TDIRECTION) (a : Int)
    (b : Board) :
    rotateRobot_loop t angle dir 0 a b =
      if lt_int16_uint16 t a angle then
        (if !(sensorTriggered t b).1 then none else some (a, (sensorTriggered t b).2))
      else some (a, b) := by
  rw [rotateRobot_loop]

theorem rotateRobot_loop_succ (t : Target) (angle : Nat) (dir : TDIRECTION) (f : Nat) (a : Int)
    (b : Board) :
    rotateRobot_loop t angle dir (f + 1) a b =
      if lt_int16_uint16 t a angle then
        (if !(sensorTriggered t b).1 then
          rotateRobot_loop t angle dir f
            (toInt16 (a + dirSign dir * rawDelta b.rx (b.pos + 10)))
            (LCD_Print (toInt16 (a + dirSign dir * rawDelta b.rx (b.pos + 10)))
              TLCDPOS.BM_RIGHT
              (USART_InChar (USART_InChar (USART_OutChar OP_SENS_ANGLE
                (USART_OutChar OP_SENSORS (sensorTriggered t b).2))).2).2)
        else some (a, (sensorTriggered t b).2))
      else some (a, b) := by
  rw [rotateRobot_loop]
  simp only [accumulate_eq, rawDelta, USART_InChar_fst, USART_InChar_rx, USART_InChar_pos,
    USART_OutChar_rx, USART_OutChar_pos, sensorTriggered_rx, sensorTriggered_pos]

theorem rotateRobot_loop_moved (t : Target) (angle : Nat) (dir : TDIRECTION) :
    ∀ (fuel : Nat) (a : Int) (b : Board) (res : Int × Board),
      toInt16 a = a → rotateRobot_loop t angle dir fuel a b = some res →
      ∃ n, (res.2.pos = b.pos + 12 * n ∨ res.2.pos = b.pos + 12 * n + 10) ∧ res.2.rx = b.rx ∧
        res.1 = toInt16 (a + dirSign dir * rawSum b.rx 12 (b.pos + 10) n) := by
  intro fuel
  induction fuel with
  | zero =>
    intro a b res ha h
    rw [rotateRobot_loop_zero] at h
    by_cases hc : lt_int16_uint16 t a angle = true
    · by_cases hs : (sensorTriggered t b).1 = true
      · simp only [hc, hs, if_true, Bool.not_true, Bool.false_eq_true, if_false] at h
        injection h with h
        subst h
        exact ⟨0, Or.inr (by simp), by simp, by simp [rawSum, ha]⟩
      · simp [hc, hs] at h
    · simp only [hc, if_false] at h
      injection h with h
      subst h
      exact ⟨0, Or.inl (by simp), rfl, by simp [rawSum, ha]⟩
  | succ f ih =>
    intro a b res ha h
    rw [rotateRobot_loop_succ] at h
    by_cases hc : lt_int16_uint16 t a angle = true
    · by_cases hs : (sensorTriggered t b).1 = true
      · simp only [hc, hs, if_true, Bool.not_true, Bool.false_eq_true, if_false] at h
        injection h with h
        subst h
        exact ⟨0, Or.inr (by simp), by simp, by simp [rawSum, ha]⟩
      · simp only [hc, hs, if_true, Bool.not_eq_true, Bool.not_false] at h
        obtain ⟨n, hp, hrx, hm⟩ := ih _ _ _ (toInt16_idem _) h
        refine ⟨n + 1, ?_, ?_, ?_⟩
        · simp only [LCD_Print_pos, USART_InChar_pos, USART_OutChar_pos,
            sensorTriggered_pos] at hp
          omega
        · rw [hrx]; simp
        · rw [hm, toInt16_add_left]
          simp only [LCD_Print_rx, LCD_Print_pos, sensorTriggered_rx, sensorTriggered_pos,
            USART_InChar_rx, USART_InChar_pos, USART_OutChar_rx, USART_OutChar_pos, rawSum]
          congr 1
          have : b.pos + 10 + 1 + 1 + 10 = b.pos + 10 + 12 := by omega
          rw [this]
          ring
    · simp only [hc, if_false] at h
      injection h with h
      subst h
      exact ⟨0, Or.inl (by simp), rfl, by simp [rawSum, ha]⟩

theorem MOVE_Rotate_moved (t : Target) (fuel velocity angle : Nat) (dir : TDIRECTION)
    (b : Board) (r : MoveExit) (h : MOVE_Rotate t fuel velocity angle dir b = some r) :
    ∃ n, r.board.pos = b.pos + 2 + 4 * n ∧
      r.moved = toInt16 (dirSign dir * rawSum b.rx 4 (b.pos + 2) n) := by
  unfold MOVE_Rotate at h
  simp only [Option.map_eq_some'] at h
  obtain ⟨a, ha, rfl⟩ := h
  obtain ⟨n, hp, hrx, hm⟩ := MOVE_Rotate_loop_moved t angle dir fuel 0 false _ a (by decide) ha
  refine ⟨n, ?_, ?_⟩
  · simp only [MOVE_DirectDrive_pos]
    rw [hp]
    split <;> simp
  · rw [hm]
    split <;> simp

theorem rotateRobot_moved (t : Target) (fuel angle : Nat) (dir : TDIRECTION)
    (b : Board) (r : Int × Board) (h : rotateRobot t fuel angle dir b = some r) :
    ∃ n, (r.2.pos = b.pos + 2 + 12 * n ∨ r.2.pos = b.pos + 2 + 12 * n + 10) ∧
      r.1 = toInt16 (dirSign dir * rawSum b.rx 12 (b.pos + 2 + 10) n) := by
  unfold rotateRobot at h
  simp only [Option.map_eq_some'] at h
  obtain ⟨a, ha, rfl⟩ := h
  obtain ⟨n, hp, hrx, hm⟩ := rotateRobot_loop_moved t angle dir fuel 0 _ a (by decide) ha
  refine ⟨n, ?_, ?_⟩
  · simp only [drive_pos]
    have hq : (if dir = TDIRECTION.DIR_CCW then
        drive (-210) 210 (USART_InChar (USART_InChar (USART_OutChar OP_SENS_ANGLE
          (USART_OutChar OP_SENSORS b))).2).2
        else drive 210 (-210) (USART_InChar (USART_InChar (USART_OutChar OP_SENS_ANGLE
          (USART_OutChar OP_SENSORS b))).2).2).pos = b.pos + 2 := by
      split <;> simp
    rw [hq] at hp
    exact hp
  · rw [hm]
    split <;> simp

/-- C3 as stated fails for a clockwise turn whose raw deltas sum to `-32768`:
one poll decodes the bytes `0x80 0x00` to `-32768` (every partial sum is a
signed 16-bit value), a bump ends the loop, and the accumulated angle is
`-32768`, not `-(-32768) = 32768`, which an `int16_t` cannot hold. -/
theorem C3_clockwise_full_scale :
    ∃ r, MOVE_Rotate createTarget 1 210 90 TDIRECTION.DIR_CW (boardOf [0, 0, 128, 0, 1, 0])
        = some r ∧
      r.board.pos = 2 + 4 * 1 ∧
      (∀ k, k ≤ 1 → -32768 ≤ rawSum (boardOf [0, 0, 128, 0, 1, 0]).rx 4 2 k ∧
        rawSum (boardOf [0, 0, 128, 0, 1, 0]).rx 4 2 k ≤ 32767) ∧
      rawSum (boardOf [0, 0, 128, 0, 1, 0]).rx 4 2 1 = -32768 ∧
      r.moved = -32768 ∧
      r.moved ≠ -(rawSum (boardOf [0, 0, 128, 0, 1, 0]).rx 4 2 1) :=
  ⟨_, rfl, by decide, by decide, by decide, by decide, by decide⟩

/-- C3 (amended): whenever `MOVE_Rotate` or `rotateRobot` returns, it has
polled some number `n` of raw deltas after the discarded baseline read (the
deltas sit at stride 4 resp. 12 in the incoming stream, the baseline bytes
before them are not summed), and the accumulated angle at exit is the signed
16-bit reduction of their sum `d1+...+dn` for counter-clockwise and of
`-(d1+...+dn)` for clockwise; it is exactly `d1+...+dn` resp. `-(d1+...+dn)`
whenever that total lies in the signed 16-bit range. -/
theorem C3_accumulated_angle (t : Target) (fuel velocity angle : Nat) (dir : TDIRECTION)
    (b : Board) :
    (∀ r, MOVE_Rotate t fuel velocity angle dir b = some r →
      ∃ n, r.board.pos = b.pos + 2 + 4 * n ∧
        r.moved = toInt16 (dirSign dir * rawSum b.rx 4 (b.pos + 2) n) ∧
        (dir = TDIRECTION.DIR_CCW → -32768 ≤ rawSum b.rx 4 (b.pos + 2) n →
          rawSum b.rx 4 (b.pos + 2) n ≤ 32767 → r.moved = rawSum b.rx 4 (b.pos + 2) n) ∧
        (dir = TDIRECTION.DIR_CW → -32768 ≤ -rawSum b.rx 4 (b.pos + 2) n →
          -rawSum b.rx 4 (b.pos + 2) n ≤ 32767 → r.moved = -rawSum b.rx 4 (b.pos + 2) n)) ∧
    (∀ r, rotateRobot t fuel angle dir b = some r →
      ∃ n, (r.2.pos = b.pos + 2 + 12 * n ∨ r.2.pos = b.pos + 2 + 12 * n + 10) ∧
        r.1 = toInt16 (dirSign dir * rawSum b.rx 12 (b.pos + 2 + 10) n) ∧
        (dir = TDIRECTION.DIR_CCW → -32768 ≤ rawSum b.rx 12 (b.pos + 2 + 10) n →
          rawSum b.rx 12 (b.pos + 2 + 10) n ≤ 32767 →
          r.1 = rawSum b.rx 12 (b.pos + 2 + 10) n) ∧
        (dir = TDIRECTION.DIR_CW → -32768 ≤ -rawSum b.rx 12 (b.pos + 2 + 10) n →
          -rawSum b.rx 12 (b.pos + 2 + 10) n ≤ 32767 →
          r.1 = -rawSum b.rx 12 (b.pos + 2 + 10) n)) := by
  constructor
  · intro r h
    obtain ⟨n, hp, hm⟩ := MOVE_Rotate_moved t fuel velocity angle dir b r h
    refine ⟨n, hp, hm, ?_, ?_⟩
    · intro hd h1 h2
      rw [hm, hd]
      simpa [dirSign] using toInt16_of_range h1 h2
    · intro hd h1 h2
      rw [hm, hd]
      simpa [dirSign] using toInt16_of_range h1 h2
  · intro r h
    obtain ⟨n, hp, hm⟩ := rotateRobot_moved t fuel angle dir b r h
    refine ⟨n, hp, hm, ?_, ?_⟩
    · intro hd h1 h2
      rw [hm, hd]
      simpa [dirSign] using toInt16_of_range h1 h2
    · intro hd h1 h2
      rw [hm, hd]
      simpa [dirSign] using toInt16_of_range h1 h2

/-- C3 at a clockwise `MOVE_Rotate` towards 90 degrees that polls the raw
deltas `-40` and `-50` (bytes `0xFF 0xD8`, `0xFF 0xCE`) without a sensor trip:
two polls, accumulated angle `90`. -/
theorem C3_accumulated_angle_witness :
    ∃ r, MOVE_Rotate createTarget 5 210 90 TDIRECTION.DIR_CW
        (boardOf [0, 0, 255, 216, 0, 0, 255, 206, 0, 0]) = some r ∧
      rawSum (boardOf [0, 0, 255, 216, 0, 0, 255, 206, 0, 0]).rx 4 2 2 = -90 ∧
      r.moved = 90 ∧
      ∃ n, r.board.pos = 0 + 2 + 4 * n ∧
        r.moved = toInt16 (dirSign TDIRECTION.DIR_CW *
          rawSum (boardOf [0, 0, 255, 216, 0, 0, 255, 206, 0, 0]).rx 4 (0 + 2) n) :=
  ⟨_, rfl, by decide, by decide,
    ((C3_accumulated_angle createTarget 5 210 90 TDIRECTION.DIR_CW
      (boardOf [0, 0, 255, 216, 0, 0, 255, 206, 0, 0])).1 _ rfl).imp
      fun _ h => ⟨h.1, h.2.1⟩⟩

/-! ## C6, C7: straight runs over a constant delta -/

theorem MOVE_Straight_poll_board (t : Target) (b : Board) :
    (MOVE_CheckSensor t (USART_InChar (USART_InChar (USART_OutChar t.OP_SENS_DIST
      (USART_OutChar t.OP_SENSORS b))).2).2).2 = afterPolls t b 1 := by
  cases b
  simp [MOVE_CheckSensor, USART_InChar, USART_OutChar, afterPolls, pollBytes]

theorem MOVE_Straight_poll_trip (t : Target) (b : Board) :
    (MOVE_CheckSensor t (USART_InChar (USART_InChar (USART_OutChar t.OP_SENS_DIST
      (USART_OutChar t.OP_SENSORS b))).2).2).1 = sensorTripAt t b (b.pos + 2) := rfl

theorem MOVE_Straight_loop_fuel_zero (t : Target) (velocity : Int) (distance : Nat) (a : Int)
    (trig : Bool) (b : Board) :
    MOVE_Straight_loop t velocity distance 0 a trig b =
      if lt_int16_uint16 t a distance && !trig then none else some (a, trig, b) := by
  rw [MOVE_Straight_loop]

theorem MOVE_Straight_loop_fuel_succ (t : Target) (velocity : Int) (distance : Nat) (f : Nat)
    (a : Int) (trig : Bool) (b : Board) :
    MOVE_Straight_loop t velocity distance (f + 1) a trig b =
      if lt_int16_uint16 t a distance && !trig then
        MOVE_Straight_loop t velocity distance f
          (if velocity ≥ 0 then toInt16 (a + rawDelta b.rx b.pos)
            else toInt16 (a + rawDelta b.rx b.pos * -1))
          (sensorTripAt t b (b.pos + 2)) (afterPolls t b 1)
      else some (a, trig, b) := by
  rw [MOVE_Straight_loop]
  simp only [MOVE_Straight_poll_board, MOVE_Straight_poll_trip, rawDelta, USART_InChar_fst,
    USART_InChar_rx, USART_InChar_pos, USART_OutChar_rx, USART_OutChar_pos]

theorem afterPolls_zero (t : Target) (b : Board) : afterPolls t b 0 = b := by
  cases b
  simp [afterPolls]

theorem afterPolls_succ (t : Target) (b : Board) (j : Nat) :
    afterPolls t (afterPolls t b 1) j = afterPolls t b (j + 1) := by
  cases b
  simp only [afterPolls, List.replicate_succ, List.flatten_cons, List.replicate_zero,
    List.flatten_nil, List.append_nil, List.append_assoc, Board.mk.injEq, true_and, and_true]
  omega

theorem afterPolls_one_more (t : Target) (b : Board) (j : Nat) :
    afterPolls t (afterPolls t b j) 1 = afterPolls t b (j + 1) := by
  cases b
  simp only [afterPolls, List.replicate_succ', List.flatten_append, List.replicate_zero,
    List.flatten_nil, List.nil_append, List.append_assoc, List.flatten_cons, List.append_nil,
    Board.mk.injEq, true_and, and_true]
  omega

@[simp]
theorem afterPolls_rx (t : Target) (b : Board) (j : Nat) :
    (afterPolls t b j).rx = b.rx := rfl
@[simp]
theorem afterPolls_pos (t : Target) (b : Board) (j : Nat) :
    (afterPolls t b j).pos = b.pos + 4 * j := rfl
@[simp]
theorem afterPolls_tx (t : Target) (b : Board) (j : Nat) :
    (afterPolls t b j).tx = b.tx ++ (List.replicate j (pollBytes t)).flatten := rfl
@[simp]
theorem sensorTripAt_afterPolls (t : Target) (b : Board) (j q : Nat) :
    sensorTripAt t (afterPolls t b j) q = sensorTripAt t b q := rfl

theorem lt_int16_uint16_eq (t : Target) (a : Int) (D : Nat) (h0 : 0 ≤ a) (h1 : a ≤ 65535) :
    lt_int16_uint16 t a D = decide (a < (D : Int)) := by
  unfold lt_int16_uint16 toUInt16
  cases t.int16
  · simp
  · simp only [if_true, decide_eq_decide]
    omega

theorem MOVE_Straight_loop_steps (t : Target) (velocity : Int) (D d : Nat)
    (hv : 0 < velocity) :
    ∀ (j fuel : Nat) (a : Int) (b : Board), 0 ≤ a → a + (j : Int) * d ≤ 32767 →
      (∀ i, i < j → a + (i : Int) * d < D) →
      (∀ i, i < j → rawDelta b.rx (b.pos + 4 * i) = d) →
      (∀ i, i < j → sensorTripAt t b (b.pos + 4 * i + 2) = false) →
      MOVE_Straight_loop t velocity D fuel a false b =
        if j ≤ fuel then
          MOVE_Straight_loop t velocity D (fuel - j) (a + (j : Int) * d) false (afterPolls t b j)
        else none := by
  intro j
  induction j with
  | zero =>
    intro fuel a b _ _ _ _ _
    simp [afterPolls_zero]
  | succ j ih =>
    intro fuel a b h0 h1 hlt hdelta hsens
    have hlt0 : a < (D : Int) := by simpa using hlt 0 (Nat.succ_pos j)
    have hd0 : rawDelta b.rx b.pos = d := by simpa using hdelta 0 (Nat.succ_pos j)
    have hs0 : sensorTripAt t b (b.pos + 2) = false := by simpa using hsens 0 (Nat.succ_pos j)
    have hdnn : (0 : Int) ≤ (d : Int) := Int.ofNat_nonneg d
    have hjd : (0 : Int) ≤ (j : Int) * (d : Int) :=
      Int.mul_nonneg (Int.ofNat_nonneg j) hdnn
    have hsucc : ((j + 1 : Nat) : Int) * (d : Int) = (j : Int) * d + d := by
      push_cast; ring
    rw [hsucc] at h1
    have hcond : lt_int16_uint16 t a D = true := by
      rw [lt_int16_uint16_eq t a D h0 (by omega)]
      simpa using hlt0
    cases fuel with
    | zero =>
      rw [MOVE_Straight_loop_fuel_zero]
      simp [hcond]
    | succ f =>
      rw [MOVE_Straight_loop_fuel_succ]
      have hge : velocity ≥ 0 := le_of_lt hv
      simp only [hcond, Bool.not_false, Bool.and_self, if_true, hge, hd0, hs0]
      have ha' : toInt16 (a + (d : Int)) = a + d := toInt16_of_range (by omega) (by omega)
      rw [ha']
      rw [ih f (a + d) (afterPolls t b 1) (by omega) (by omega)]
      · simp only [afterPolls_succ, Nat.add_le_add_iff_right, Nat.add_sub_add_right]
        have : a + (d : Int) + (j : Int) * d = a + ((j + 1 : Nat) : Int) * d := by
          rw [hsucc]; ring
        rw [this]
      · intro i hi
        have := hlt (i + 1) (by omega)
        have e : ((i + 1 : Nat) : Int) * (d : Int) = (i : Int) * d + d := by push_cast; ring
        rw [e] at this
        omega
      · intro i hi
        have := hdelta (i + 1) (by omega)
        simp only [afterPolls_rx, afterPolls_pos]
        have e : b.pos + 4 * 1 + 4 * i = b.pos + 4 * (i + 1) := by omega
        rw [e]
        exact this
      · intro i hi
        have := hsens (i + 1) (by omega)
        simp only [sensorTripAt_afterPolls, afterPolls_pos]
        have e : b.pos + 4 * 1 + 4 * i + 2 = b.pos + 4 * (i + 1) + 2 := by omega
        rw [e]
        exact this

theorem MOVE_Straight_loop_exit (t : Target) (velocity : Int) (D fuel : Nat) (a : Int)
    (trig : Bool) (b : Board) (h : (lt_int16_uint16 t a D && !trig) = false) :
    MOVE_Straight_loop t velocity D fuel a trig b = some (a, trig, b) := by
  cases fuel with
  | zero => rw [MOVE_Straight_loop_fuel_zero]; simp [h]
  | succ f => rw [MOVE_Straight_loop_fuel_succ]; simp [h]

theorem ceil_div_bounds (D d : Nat) (hd : 0 < d) :
    D ≤ (D + d - 1) / d * d ∧ (D + d - 1) / d * d ≤ D + d - 1 ∧
      ∀ i, i < (D + d - 1) / d → i * d + d ≤ (D + d - 1) / d * d := by
  have h1 := Nat.div_add_mod (D + d - 1) d
  have h2 := Nat.mod_lt (D + d - 1) hd
  have h3 : d * ((D + d - 1) / d) = (D + d - 1) / d * d := Nat.mul_comm _ _
  refine ⟨by omega, by omega, ?_⟩
  intro i hi
  have h4 : (i + 1) * d ≤ (D + d - 1) / d * d := Nat.mul_le_mul_right d hi
  rw [Nat.succ_mul] at h4
  exact h4

/-- The board `MOVE_Straight` hands to its loop: baseline query sent, two
bytes discarded, wheel command sent. -/
theorem MOVE_Straight_eq (t : Target) (fuel : Nat) (velocity : Int) (D : Nat) (b : Board) :
    MOVE_Straight t fuel velocity D b =
      (MOVE_Straight_loop t velocity D fuel 0 false
        (MOVE_DirectDrive t velocity velocity (USART_InChar (USART_InChar
          (USART_OutChar t.OP_SENS_DIST (USART_OutChar t.OP_SENSORS b))).2).2)).map
        fun r => { sensorTrig := r.2.1, moved := r.1, board := MOVE_DirectDrive t 0 0 r.2.2 } :=
  rfl

theorem MOVE_Straight_start_tx (t : Target) (velocity : Int) (b : Board) :
    (MOVE_DirectDrive t velocity velocity (USART_InChar (USART_InChar
      (USART_OutChar t.OP_SENS_DIST (USART_OutChar t.OP_SENSORS b))).2).2).tx =
      b.tx ++ [t.OP_SENSORS, t.OP_SENS_DIST] ++ [t.OP_DRIVE_DIRECT,
        (int16union_t.store velocity).Hi, (int16union_t.store velocity).Lo,
        (int16union_t.store velocity).Hi, (int16union_t.store velocity).Lo] := by
  rw [MOVE_DirectDrive_tx]
  simp

theorem MOVE_Straight_loop_const (t : Target) (velocity : Int) (D d : Nat) (B : Board)
    (hv : 0 < velocity) (hd : 0 < d) (hDd : D + d ≤ 32767)
    (hdelta : ∀ i, i < (D + d - 1) / d → rawDelta B.rx (B.pos + 4 * i) = d)
    (hsens : ∀ i, i < (D + d - 1) / d → sensorTripAt t B (B.pos + 4 * i + 2) = false)
    (fuel : Nat) :
    MOVE_Straight_loop t velocity D fuel 0 false B =
      if (D + d - 1) / d ≤ fuel then
        some ((((D + d - 1) / d : Nat) : Int) * d, false, afterPolls t B ((D + d - 1) / d))
      else none := by
  obtain ⟨hc1, hc2, hc3⟩ := ceil_div_bounds D d hd
  have e1 : (((D + d - 1) / d * d : Nat) : Int) ≤ ((D + d - 1 : Nat) : Int) :=
    Int.ofNat_le.mpr hc2
  have e2 : ((D : Nat) : Int) ≤ (((D + d - 1) / d * d : Nat) : Int) := Int.ofNat_le.mpr hc1
  rw [Nat.cast_mul] at e1 e2
  have e3 : ((D + d - 1 : Nat) : Int) = (D : Int) + d - 1 := by omega
  rw [e3] at e1
  have hsteps := MOVE_Straight_loop_steps t velocity D d hv ((D + d - 1) / d) fuel 0 B
    (le_refl 0) (by omega)
    (by
      intro i hi
      have h := hc3 i hi
      have h' : ((i * d + d : Nat) : Int) ≤ (((D + d - 1) / d * d : Nat) : Int) :=
        Int.ofNat_le.mpr h
      rw [Nat.cast_mul, Nat.cast_add, Nat.cast_mul] at h'
      omega)
    hdelta hsens
  rw [hsteps]
  by_cases hf : (D + d - 1) / d ≤ fuel
  · rw [if_pos hf, if_pos hf, MOVE_Straight_loop_exit]
    · rw [Int.zero_add]
    · rw [lt_int16_uint16_eq t _ D (by omega) (by omega)]
      have : ¬ (0 + (((D + d - 1) / d : Nat) : Int) * d < D) := by omega
      rw [decide_eq_false this]
      rfl
  · rw [if_neg hf, if_neg hf]

theorem MOVE_Straight_start_rx (t : Target) (velocity : Int) (b : Board) :
    (MOVE_DirectDrive t velocity velocity (USART_InChar (USART_InChar
      (USART_OutChar t.OP_SENS_DIST (USART_OutChar t.OP_SENSORS b))).2).2).rx = b.rx := rfl

theorem MOVE_Straight_start_pos (t : Target) (velocity : Int) (b : Board) :
    (MOVE_DirectDrive t velocity velocity (USART_InChar (USART_InChar
      (USART_OutChar t.OP_SENS_DIST (USART_OutChar t.OP_SENSORS b))).2).2).pos = b.pos + 2 :=
  rfl

theorem sensorTripAt_congr (t : Target) (b' b : Board) (q : Nat) (h : b'.rx = b.rx) :
    sensorTripAt t b' q = sensorTripAt t b q := by
  unfold sensorTripAt
  rw [MOVE_CheckSensor_fst, MOVE_CheckSensor_fst]
  show decide (t.sensors (b'.rx q % 256 &&& 3) (b'.rx (q + 1) % 256) 0 > 0) =
    decide (t.sensors (b.rx q % 256 &&& 3) (b.rx (q + 1) % 256) 0 > 0)
  rw [h]

/-- C6: for every positive velocity, every target `D` and every constant
per-poll delta `d > 0` with `D + d ≤ 32767`, when the first `⌈D/d⌉` polls after
the discarded baseline decode `d` and `MOVE_CheckSensor` reports no trip at
them, `MOVE_Straight` returns after exactly `⌈D/d⌉ = (D + d - 1) / d` polls (any
bound on the iterations of at least that many gives the result, any smaller
bound gives none): it returns `false`, the accumulated distance is
`d * ⌈D/d⌉`, which is `D` when `d` divides `D`, it has read `2 + 4 * ⌈D/d⌉`
bytes and written the baseline query, the wheel command, `⌈D/d⌉` polls and the
stop command. -/
theorem C6_straight_reaches_target (t : Target) (fuel : Nat) (velocity : Int) (D d : Nat)
    (b : Board) (hv : 0 < velocity) (hd : 0 < d) (hDd : D + d ≤ 32767)
    (hdelta : ∀ i, i < (D + d - 1) / d → rawDelta b.rx (b.pos + 2 + 4 * i) = d)
    (hsens : ∀ i, i < (D + d - 1) / d → sensorTripAt t b (b.pos + 2 + 4 * i + 2) = false)
    (hfuel : (D + d - 1) / d ≤ fuel) :
    (∃ r, MOVE_Straight t fuel velocity D b = some r ∧ r.sensorTrig = false ∧
      r.moved = ((d * ((D + d - 1) / d) : Nat) : Int) ∧ (d ∣ D → r.moved = (D : Int)) ∧
      r.board.pos = b.pos + 2 + 4 * ((D + d - 1) / d) ∧
      r.board.tx = b.tx ++ [t.OP_SENSORS, t.OP_SENS_DIST] ++ [t.OP_DRIVE_DIRECT,
          (int16union_t.store velocity).Hi, (int16union_t.store velocity).Lo,
          (int16union_t.store velocity).Hi, (int16union_t.store velocity).Lo] ++
        (List.replicate ((D + d - 1) / d) (pollBytes t)).flatten ++
        [t.OP_DRIVE_DIRECT, 0, 0, 0, 0]) ∧
    (∀ fuel', fuel' < (D + d - 1) / d → MOVE_Straight t fuel' velocity D b = none) := by
  have hloop := MOVE_Straight_loop_const t velocity D d
    (MOVE_DirectDrive t velocity velocity (USART_InChar (USART_InChar
      (USART_OutChar t.OP_SENS_DIST (USART_OutChar t.OP_SENSORS b))).2).2) hv hd hDd
    (by
      intro i hi
      rw [MOVE_Straight_start_rx, MOVE_Straight_start_pos]
      exact hdelta i hi)
    (by
      intro i hi
      rw [sensorTripAt_congr t _ b _ (MOVE_Straight_start_rx t velocity b),
        MOVE_Straight_start_pos]
      exact hsens i hi)
  constructor
  · rw [MOVE_Straight_eq, hloop fuel, if_pos hfuel, Option.map_some']
    refine ⟨_, rfl, rfl, ?_, ?_, ?_, ?_⟩
    · show (((D + d - 1) / d : Nat) : Int) * d = ((d * ((D + d - 1) / d) : Nat) : Int)
      rw [Nat.cast_mul]
      ring
    · intro hdvd
      show (((D + d - 1) / d : Nat) : Int) * d = (D : Int)
      obtain ⟨k, rfl⟩ := hdvd
      have hk : (d * k + d - 1) / d = k := by
        have h1 : k * d = d * k := Nat.mul_comm k d
        have h2 : (k + 1) * d = k * d + d := Nat.succ_mul k d
        apply Nat.div_eq_of_lt_le
        · omega
        · omega
      rw [hk, Nat.cast_mul]
      ring
    · show (MOVE_DirectDrive t 0 0 _).pos = _
      simp
    · show (MOVE_DirectDrive t 0 0 _).tx = _
      rw [MOVE_DirectDrive_stop_tx, afterPolls_tx, MOVE_Straight_start_tx]
  · intro fuel' hf
    rw [MOVE_Straight_eq, hloop fuel', if_neg (by omega), Option.map_none']

/-- C6 at velocity 200, `D = 1000`, `d = 50`: 20 polls, distance 1000, and 19
iterations are not enough. -/
theorem C6_straight_reaches_target_witness :
    (0 : Int) < 200 ∧ 0 < 50 ∧ 1000 + 50 ≤ 32767 ∧ (1000 + 50 - 1) / 50 = 20 ∧
    (∃ r, MOVE_Straight createTarget 20 200 1000 (steadyBoard 50) = some r ∧
      r.sensorTrig = false ∧ r.moved = (1000 : Nat) ∧
      r.board.pos = (steadyBoard 50).pos + 2 + 4 * ((1000 + 50 - 1) / 50)) ∧
    MOVE_Straight createTarget 19 200 1000 (steadyBoard 50) = none := by
  obtain ⟨⟨r, hr, hs, _, hdv, hp, _⟩, hnone⟩ :=
    C6_straight_reaches_target createTarget 20 200 1000 50 (steadyBoard 50)
      (by decide) (by decide) (by decide) (by decide) (by decide) (by decide)
  exact ⟨by decide, by decide, by decide, by decide, ⟨r, hr, hs, hdv (by decide), hp⟩,
    hnone 19 (by decide)⟩

theorem MOVE_Straight_loop_trip (t : Target) (velocity : Int) (D d n : Nat) (B : Board)
    (hv : 0 < velocity) (hn : 1 ≤ n) (hnd : n * d < D) (hfit : n * d ≤ 32767)
    (hdelta : ∀ i, i < n → rawDelta B.rx (B.pos + 4 * i) = d)
    (hquiet : ∀ i, i < n - 1 → sensorTripAt t B (B.pos + 4 * i + 2) = false)
    (htrip : sensorTripAt t B (B.pos + 4 * (n - 1) + 2) = true)
    (fuel : Nat) :
    MOVE_Straight_loop t velocity D fuel 0 false B =
      if n ≤ fuel then some (((n * d : Nat) : Int), true, afterPolls t B n) else none := by
  obtain ⟨m, rfl⟩ : ∃ m, n = m + 1 := ⟨n - 1, by omega⟩
  simp only [Nat.add_sub_cancel] at hquiet htrip
  have hmul : (m + 1) * d = m * d + d := Nat.succ_mul m d
  have hmd : ((m * d : Nat) : Int) = (m : Int) * d := Nat.cast_mul m d
  have hle : ∀ i, i < m + 1 → i * d ≤ m * d := fun i hi =>
    Nat.mul_le_mul_right d (by omega)
  have hsteps := MOVE_Straight_loop_steps t velocity D d hv m fuel 0 B (le_refl 0)
    (by omega)
    (by
      intro i hi
      have h := hle i (by omega)
      have h' : ((i * d : Nat) : Int) = (i : Int) * d := Nat.cast_mul i d
      omega)
    (fun i hi => hdelta i (by omega)) hquiet
  rw [hsteps]
  by_cases hf : m + 1 ≤ fuel
  · obtain ⟨f, hfe⟩ : ∃ f, fuel - m = f + 1 := ⟨fuel - m - 1, by omega⟩
    rw [if_pos (by omega), if_pos hf, hfe, MOVE_Straight_loop_fuel_succ]
    have hcond : lt_int16_uint16 t (0 + (m : Int) * d) D = true := by
      rw [lt_int16_uint16_eq t _ D (by omega) (by omega)]
      have : 0 + (m : Int) * d < D := by omega
      exact decide_eq_true this
    have hge : velocity ≥ 0 := le_of_lt hv
    have hd0 := hdelta m (by omega)
    simp only [afterPolls_rx, afterPolls_pos, sensorTripAt_afterPolls] at *
    simp only [hcond, Bool.not_false, Bool.and_self, if_true, hge, hd0, htrip, afterPolls_succ]
    rw [MOVE_Straight_loop_exit _ _ _ _ _ _ _ (by simp)]
    have ha : toInt16 (0 + (m : Int) * d + d) = (((m + 1) * d : Nat) : Int) := by
      rw [toInt16_of_range (by omega) (by omega)]
      omega
    rw [ha, afterPolls_one_more]
  · rw [if_neg hf]
    by_cases hm : m ≤ fuel
    · have hz : fuel - m = 0 := by omega
      rw [if_pos hm, hz, MOVE_Straight_loop_fuel_zero]
      have hcond : lt_int16_uint16 t (0 + (m : Int) * d) D = true := by
        rw [lt_int16_uint16_eq t _ D (by omega) (by omega)]
        have : 0 + (m : Int) * d < D := by omega
        exact decide_eq_true this
      rw [hcond]
      rfl
    · rw [if_neg hm]

/-- C7 (amended): for every positive velocity, target `D`, constant per-poll
delta `d` and `n ≥ 1` with `n * d < D` and `n * d ≤ 32767` (the accumulator is
an `int16_t`), when the first `n` polls decode `d`, `MOVE_CheckSensor` reports
no trip at polls `1..n-1` and a trip at poll `n`, `MOVE_Straight` returns after
exactly `n` polls (any bound of at least `n` iterations gives the result, any
smaller bound gives none): it returns `true`, the accumulated distance is
`n * d`, it has read `2 + 4 * n` bytes and written the baseline query, the
wheel command, `n` polls and the stop command. -/
theorem C7_straight_interrupted (t : Target) (fuel : Nat) (velocity : Int) (D d n : Nat)
    (b : Board) (hv : 0 < velocity) (hn : 1 ≤ n) (hnd : n * d < D) (hfit : n * d ≤ 32767)
    (hdelta : ∀ i, i < n → rawDelta b.rx (b.pos + 2 + 4 * i) = d)
    (hquiet : ∀ i, i < n - 1 → sensorTripAt t b (b.pos + 2 + 4 * i + 2) = false)
    (htrip : sensorTripAt t b (b.pos + 2 + 4 * (n - 1) + 2) = true)
    (hfuel : n ≤ fuel) :
    (∃ r, MOVE_Straight t fuel velocity D b = some r ∧ r.sensorTrig = true ∧
      r.moved = ((n * d : Nat) : Int) ∧
      r.board.pos = b.pos + 2 + 4 * n ∧
      r.board.tx = b.tx ++ [t.OP_SENSORS, t.OP_SENS_DIST] ++ [t.OP_DRIVE_DIRECT,
          (int16union_t.store velocity).Hi, (int16union_t.store velocity).Lo,
          (int16union_t.store velocity).Hi, (int16union_t.store velocity).Lo] ++
        (List.replicate n (pollBytes t)).flatten ++
        [t.OP_DRIVE_DIRECT, 0, 0, 0, 0]) ∧
    (∀ fuel', fuel' < n → MOVE_Straight t fuel' velocity D b = none) := by
  have hloop := MOVE_Straight_loop_trip t velocity D d n
    (MOVE_DirectDrive t velocity velocity (USART_InChar (USART_InChar
      (USART_OutChar t.OP_SENS_DIST (USART_OutChar t.OP_SENSORS b))).2).2) hv hn hnd hfit
    (by
      intro i hi
      rw [MOVE_Straight_start_rx, MOVE_Straight_start_pos]
      exact hdelta i hi)
    (by
      intro i hi
      rw [sensorTripAt_congr t _ b _ (MOVE_Straight_start_rx t velocity b),
        MOVE_Straight_start_pos]
      exact hquiet i hi)
    (by
      rw [sensorTripAt_congr t _ b _ (MOVE_Straight_start_rx t velocity b),
        MOVE_Straight_start_pos]
      exact htrip)
  constructor
  · rw [MOVE_Straight_eq, hloop fuel, if_pos hfuel, Option.map_some']
    refine ⟨_, rfl, rfl, rfl, ?_, ?_⟩
    · show (MOVE_DirectDrive t 0 0 _).pos = _
      simp
    · show (MOVE_DirectDrive t 0 0 _).tx = _
      rw [MOVE_DirectDrive_stop_tx, afterPolls_tx, MOVE_Straight_start_tx]
  · intro fuel' hf
    rw [MOVE_Straight_eq, hloop fuel', if_neg (by omega), Option.map_none']

/-- C7 as stated fails once `n * d` exceeds 32767: with `D = 65535`,
`d = 32767` and a trip at poll `n = 2` (`n * d = 65534 < D`), `MOVE_Straight`
returns `true` after two polls but the accumulated distance is `-2`, not
`65534`; this is so whether `int` has 16 bits or more. -/
theorem C7_accumulator_wraps :
    (0 : Int) < 200 ∧ 0 < 32767 ∧ 1 ≤ 2 ∧ 2 * 32767 < 65535 ∧
    (∀ i, i < 2 → rawDelta (boardOf [0, 0, 127, 255, 0, 0, 127, 255, 1, 0]).rx (0 + 2 + 4 * i)
      = (32767 : Nat)) ∧
    (∀ i, i < 2 - 1 → sensorTripAt createTarget (boardOf [0, 0, 127, 255, 0, 0, 127, 255, 1, 0])
      (0 + 2 + 4 * i + 2) = false) ∧
    sensorTripAt createTarget (boardOf [0, 0, 127, 255, 0, 0, 127, 255, 1, 0])
      (0 + 2 + 4 * (2 - 1) + 2) = true ∧
    (∃ r, MOVE_Straight createTarget 2 200 65535
        (boardOf [0, 0, 127, 255, 0, 0, 127, 255, 1, 0]) = some r ∧
      r.sensorTrig = true ∧ r.board.pos = 0 + 2 + 4 * 2 ∧ r.moved = -2 ∧
      r.moved ≠ ((2 * 32767 : Nat) : Int)) ∧
    (∃ r, MOVE_Straight wideTarget 2 200 65535
        (boardOf [0, 0, 127, 255, 0, 0, 127, 255, 1, 0]) = some r ∧
      r.sensorTrig = true ∧ r.board.pos = 0 + 2 + 4 * 2 ∧ r.moved = -2 ∧
      r.moved ≠ ((2 * 32767 : Nat) : Int)) :=
  ⟨by decide, by decide, by decide, by decide, by decide, by decide, by decide,
    ⟨_, rfl, by decide, by decide, by decide, by decide⟩,
    ⟨_, rfl, by decide, by decide, by decide, by decide⟩⟩

/-- C7 at velocity 200, `D = 1000`, `d = 50` and a bump at poll 3: the run
is interrupted with distance 150. -/
theorem C7_straight_interrupted_witness :
    (0 : Int) < 200 ∧ 1 ≤ 3 ∧ 3 * 50 < 1000 ∧ 3 * 50 ≤ 32767 ∧
    (∃ r, MOVE_Straight createTarget 3 200 1000
        (boardOf [0, 0, 0, 50, 0, 0, 0, 50, 0, 0, 0, 50, 1, 0]) = some r ∧
      r.sensorTrig = true ∧ r.moved = ((3 * 50 : Nat) : Int) ∧
      r.board.pos = (boardOf [0, 0, 0, 50, 0, 0, 0, 50, 0, 0, 0, 50, 1, 0]).pos + 2 + 4 * 3) ∧
    MOVE_Straight createTarget 2 200 1000
      (boardOf [0, 0, 0, 50, 0, 0, 0, 50, 0, 0, 0, 50, 1, 0]) = none := by
  obtain ⟨⟨r, hr, hs, hm, hp, _⟩, hnone⟩ :=
    C7_straight_interrupted createTarget 3 200 1000 50 3
      (boardOf [0, 0, 0, 50, 0, 0, 0, 50, 0, 0, 0, 50, 1, 0])
      (by decide) (by decide) (by decide) (by decide) (by decide) (by decide) (by decide)
      (by decide)
  exact ⟨by decide, by decide, by decide, by decide, ⟨r, hr, hs, hm, hp⟩,
    hnone 2 (by decide)⟩

/-! ## C8: the combined sensor flag of IROBOT.c -/

/-- C8 (the code at the failing input): a group response whose bump bit is set
and whose four cliff bytes are zero makes `sensorTriggered` return false, for
either representation of `bool`. -/
theorem C8_bump_alone_not_reported (t : Target) :
    (sensorTriggered t (boardOf [1, 0, 0, 0, 0, 0, 0, 0, 0, 0])).1 = false := by
  unfold sensorTriggered boolStore
  cases t.boolByte <;> decide

/-! ## The square as a composition -/

theorem IROBOT_DriveSquare_unroll (t : Target) (fuel : Nat) (b : Board) :
    IROBOT_DriveSquare t fuel b =
      (((legThenTurn t fuel 1000 90 TDIRECTION.DIR_CCW b).bind
        (legThenTurn t fuel 1000 90 TDIRECTION.DIR_CCW)).bind
        (legThenTurn t fuel 1000 90 TDIRECTION.DIR_CCW)).bind
        (legThenTurn t fuel 1000 90 TDIRECTION.DIR_CCW) := by
  unfold IROBOT_DriveSquare
  simp only [IROBOT_DriveSquare_for, legThenTurn]
  cases IROBOT_DriveStraight t fuel 1000 b with
  | none => rfl
  | some r1 =>
    simp only [Option.some_bind]
    cases rotateRobot t fuel 90 TDIRECTION.DIR_CCW r1.2 with
    | none => rfl
    | some r2 =>
      simp only [Option.some_bind, Option.map_some']
      cases IROBOT_DriveStraight t fuel 1000 r2.2 with
      | none => rfl
      | some r3 =>
        simp only [Option.some_bind]
        cases rotateRobot t fuel 90 TDIRECTION.DIR_CCW r3.2 with
        | none => rfl
        | some r4 =>
          simp only [Option.some_bind, Option.map_some']
          cases IROBOT_DriveStraight t fuel 1000 r4.2 with
          | none => rfl
          | some r5 =>
            simp only [Option.some_bind]
            cases rotateRobot t fuel 90 TDIRECTION.DIR_CCW r5.2 with
            | none => rfl
            | some r6 =>
              simp only [Option.some_bind, Option.map_some']
              cases IROBOT_DriveStraight t fuel 1000 r6.2 with
              | none => rfl
              | some r7 =>
                simp only [Option.some_bind]
                cases rotateRobot t fuel 90 TDIRECTION.DIR_CCW r7.2 with
                | none => rfl
                | some r8 => rfl

/-! ## C10: the return move of the sweep -/

theorem stepsBack_eq_mod (t : Target) (S offset c : Nat) (hS : 0 < S) (hS16 : S ≤ 510)
    (ho : offset < S) (hc : c < S) :
    stepsBack t S offset c = ((S - 1) + offset - c) % S := by
  unfold stepsBack
  cases t.int16
  · simp only [Bool.false_eq_true, if_false]
    have hx : ((S : Nat) : Int) - 1 + offset - c = ((S - 1 + offset - c : Nat) : Int) := by
      omega
    rw [hx, Int.tmod_eq_emod (Int.ofNat_nonneg _) (Int.ofNat_nonneg _), ← Int.ofNat_emod]
    have hlt := Nat.mod_lt (S - 1 + offset - c) hS
    unfold toUInt16
    omega
  · simp only [if_true]
    have hx : toUInt16 (((toUInt16 (((toUInt16 (((S : Nat) : Int) - 1) : Nat) : Int) + offset)
        : Nat) : Int) - c) = S - 1 + offset - c := by
      unfold toUInt16
      omega
    rw [hx]

/-- C10: for every `SM_F_STEPS_FOR_180` in `1..255` (it is a `uint8_t`), with
`S = 2 * SM_F_STEPS_FOR_180` as `IROBOT_Scan360` computes it, and every offset
and closest orientation in `[0, S)`, the `stepsBack` of the code equals
`((S - 1) + offset - closestOrientation) mod S`: the intermediate value is
neither negative nor as large as `2^16`, the result is below `S`, and it is
the value `IROBOT_Scan360` stores in its local `stepsBack`. -/
theorem C10_stepsBack_exact (t : Target) (SM_F_STEPS_FOR_180 offset closestOrientation : Nat)
    (hk : 0 < SM_F_STEPS_FOR_180) (hk8 : SM_F_STEPS_FOR_180 ≤ 255)
    (ho : offset < 2 * SM_F_STEPS_FOR_180)
    (hc : closestOrientation < 2 * SM_F_STEPS_FOR_180) :
    toUInt16 ((SM_F_STEPS_FOR_180 : Int) * 2) = 2 * SM_F_STEPS_FOR_180 ∧
    stepsBack t (2 * SM_F_STEPS_FOR_180) offset closestOrientation
      = ((2 * SM_F_STEPS_FOR_180 - 1) + offset - closestOrientation)
          % (2 * SM_F_STEPS_FOR_180) ∧
    (0 : Int) ≤ ((2 * SM_F_STEPS_FOR_180 : Nat) : Int) - 1 + offset - closestOrientation ∧
    ((2 * SM_F_STEPS_FOR_180 : Nat) : Int) - 1 + offset - closestOrientation < 65536 ∧
    stepsBack t (2 * SM_F_STEPS_FOR_180) offset closestOrientation
      < 2 * SM_F_STEPS_FOR_180 ∧
    (∀ (σ : Type) (SM_Move : Nat → TDIRECTION → σ → Nat × σ) (c0 : Nat) (s : Sweep σ),
      (IROBOT_Scan360 t SM_F_STEPS_FOR_180 SM_Move c0 s).stepsBack =
        stepsBack t (2 * SM_F_STEPS_FOR_180)
          (IROBOT_Scan360 t SM_F_STEPS_FOR_180 SM_Move c0 s).offset
          (IROBOT_Scan360 t SM_F_STEPS_FOR_180 SM_Move c0 s).closestObject) := by
  have hS : toUInt16 ((SM_F_STEPS_FOR_180 : Int) * 2) = 2 * SM_F_STEPS_FOR_180 := by
    unfold toUInt16
    omega
  have hval := stepsBack_eq_mod t (2 * SM_F_STEPS_FOR_180) offset closestOrientation
    (by omega) (by omega) ho hc
  refine ⟨hS, hval, by omega, by omega, ?_, ?_⟩
  · rw [hval]
    exact Nat.mod_lt _ (by omega)
  · intro σ SM_Move c0 s
    unfold IROBOT_Scan360
    simp only [hS]

/-! ## C5: the tie-break of the sweep -/

theorem IROBOT_Scan360_for_succ {σ : Type} (SM_Move : Nat → TDIRECTION → σ → Nat × σ)
    (n orientation closestObject : Nat) (smallestIR : ℚ) (s : Sweep σ) :
    IROBOT_Scan360_for SM_Move (n + 1) orientation closestObject smallestIR s =
      IROBOT_Scan360_for SM_Move n (SM_Move 1 TDIRECTION.DIR_CW s.sm).1
        (if s.ir s.irPos < smallestIR then orientation else closestObject)
        (if s.ir s.irPos < smallestIR then s.ir s.irPos else smallestIR)
        { sm := (SM_Move 1 TDIRECTION.DIR_CW s.sm).2, ir := s.ir, irPos := s.irPos + 1,
          lcd := s.lcd ++ [(truncInt (s.ir s.irPos), TLCDPOS.TOP_RIGHT)] } := rfl

theorem sampleOrientation_succ {σ : Type} (SM_Move : Nat → TDIRECTION → σ → Nat × σ)
    (orientation : Nat) (sm : σ) (k : Nat) :
    sampleOrientation SM_Move orientation sm (k + 1) =
      sampleOrientation SM_Move (SM_Move 1 TDIRECTION.DIR_CW sm).1
        (SM_Move 1 TDIRECTION.DIR_CW sm).2 k := by
  induction k with
  | zero => rfl
  | succ k ih =>
    show SM_Move 1 TDIRECTION.DIR_CW (sampleOrientation SM_Move orientation sm (k + 1)).2 = _
    rw [ih]
    rfl

theorem IROBOT_Scan360_for_closest {σ : Type} (SM_Move : Nat → TDIRECTION → σ → Nat × σ) :
    ∀ (n orientation c : Nat) (best : ℚ) (s : Sweep σ),
      ((∀ i, i < n → best ≤ s.ir (s.irPos + i)) →
        (IROBOT_Scan360_for SM_Move n orientation c best s).closestObject = c ∧
        (IROBOT_Scan360_for SM_Move n orientation c best s).smallestIR = best) ∧
      ((∃ i, i < n ∧ s.ir (s.irPos + i) < best) →
        ∃ k, k < n ∧ s.ir (s.irPos + k) < best ∧
          (∀ j, j < n → s.ir (s.irPos + k) ≤ s.ir (s.irPos + j)) ∧
          (∀ j, j < k → s.ir (s.irPos + k) < s.ir (s.irPos + j)) ∧
          (IROBOT_Scan360_for SM_Move n orientation c best s).closestObject
            = (sampleOrientation SM_Move orientation s.sm k).1 ∧
          (IROBOT_Scan360_for SM_Move n orientation c best s).smallestIR
            = s.ir (s.irPos + k)) := by
  intro n
  induction n with
  | zero =>
    intro orientation c best s
    refine ⟨fun _ => ⟨rfl, rfl⟩, ?_⟩
    rintro ⟨i, hi, _⟩
    omega
  | succ n ih =>
    intro orientation c best s
    rw [IROBOT_Scan360_for_succ]
    have e : ∀ i, s.irPos + 1 + i = s.irPos + (i + 1) := fun i => by omega
    by_cases hlt : s.ir s.irPos < best
    · simp only [hlt, if_true]
      obtain ⟨ih1, ih2⟩ := ih (SM_Move 1 TDIRECTION.DIR_CW s.sm).1 orientation (s.ir s.irPos)
        { sm := (SM_Move 1 TDIRECTION.DIR_CW s.sm).2, ir := s.ir, irPos := s.irPos + 1,
          lcd := s.lcd ++ [(truncInt (s.ir s.irPos), TLCDPOS.TOP_RIGHT)] }
      simp only [e] at ih1 ih2
      constructor
      · intro hall
        have := hall 0 (Nat.succ_pos n)
        simp only [Nat.add_zero] at this
        exact absurd hlt (not_lt.mpr this)
      · intro _
        by_cases hex : ∃ i, i < n ∧ s.ir (s.irPos + (i + 1)) < s.ir s.irPos
        · obtain ⟨k, hk, hkb, hmin, hfirst, hcl, hsm⟩ := ih2 hex
          refine ⟨k + 1, by omega, lt_trans hkb hlt, ?_, ?_, ?_, hsm⟩
          · intro j hj
            cases j with
            | zero => exact le_of_lt hkb
            | succ j => exact hmin j (by omega)
          · intro j hj
            cases j with
            | zero => exact hkb
            | succ j => exact hfirst j (by omega)
          · rw [hcl, sampleOrientation_succ]
        · have hall : ∀ i, i < n → s.ir s.irPos ≤ s.ir (s.irPos + (i + 1)) := by
            intro i hi
            by_contra hc
            exact hex ⟨i, hi, not_le.mp hc⟩
          obtain ⟨hcl, hsm⟩ := ih1 hall
          refine ⟨0, Nat.succ_pos n, hlt, ?_, ?_, ?_, ?_⟩
          · intro j hj
            cases j with
            | zero => exact le_refl _
            | succ j => exact hall j (by omega)
          · intro j hj
            omega
          · rw [hcl]
            rfl
          · rw [hsm]
            rfl
    · simp only [hlt, if_false]
      obtain ⟨ih1, ih2⟩ := ih (SM_Move 1 TDIRECTION.DIR_CW s.sm).1 c best
        { sm := (SM_Move 1 TDIRECTION.DIR_CW s.sm).2, ir := s.ir, irPos := s.irPos + 1,
          lcd := s.lcd ++ [(truncInt (s.ir s.irPos), TLCDPOS.TOP_RIGHT)] }
      simp only [e] at ih1 ih2
      constructor
      · intro hall
        exact ih1 fun i hi => hall (i + 1) (by omega)
      · rintro ⟨i, hi, hib⟩
        have hex : ∃ i, i < n ∧ s.ir (s.irPos + (i + 1)) < best := by
          cases i with
          | zero => exact absurd hib hlt
          | succ i => exact ⟨i, by omega, hib⟩
        obtain ⟨k, hk, hkb, hmin, hfirst, hcl, hsm⟩ := ih2 hex
        refine ⟨k + 1, by omega, hkb, ?_, ?_, ?_, hsm⟩
        · intro j hj
          cases j with
          | zero => exact le_of_lt (lt_of_lt_of_le hkb (not_lt.mp hlt))
          | succ j => exact hmin j (by omega)
        · intro j hj
          cases j with
          | zero => exact lt_of_lt_of_le hkb (not_lt.mp hlt)
          | succ j => exact hfirst j (by omega)
        · rw [hcl, sampleOrientation_succ]

/-- C5: when some reading of the sweep is below the 4000 sentinel, the
orientation recorded as closest is the one at which the first sample equal to
the minimum was taken: there is a sample index `k` whose reading is at most
every reading, strictly below every earlier reading, and whose orientation is
`closestObject`.  This holds for the sweep loop over any number `n` of
samples, whatever the stepper driver, and so for `IROBOT_Scan360` with its
`2 * SM_F_STEPS_FOR_180` samples. -/
theorem C5_first_minimum_wins {σ : Type} (SM_Move : Nat → TDIRECTION → σ → Nat × σ)
    (closestObject : Nat) (s : Sweep σ) :
    (∀ n orientation, (∃ i, i < n ∧ s.ir (s.irPos + i) < 4000) →
      ∃ k, k < n ∧ (∀ j, j < n → s.ir (s.irPos + k) ≤ s.ir (s.irPos + j)) ∧
        (∀ j, j < k → s.ir (s.irPos + k) < s.ir (s.irPos + j)) ∧
        (IROBOT_Scan360_for SM_Move n orientation closestObject 4000 s).closestObject
          = (sampleOrientation SM_Move orientation s.sm k).1) ∧
    (∀ (t : Target) (SM_F_STEPS_FOR_180 : Nat),
      (∃ i, i < toUInt16 ((SM_F_STEPS_FOR_180 : Int) * 2) ∧ s.ir (s.irPos + i) < 4000) →
      ∃ k, k < toUInt16 ((SM_F_STEPS_FOR_180 : Int) * 2) ∧
        (∀ j, j < toUInt16 ((SM_F_STEPS_FOR_180 : Int) * 2) →
          s.ir (s.irPos + k) ≤ s.ir (s.irPos + j)) ∧
        (∀ j, j < k → s.ir (s.irPos + k) < s.ir (s.irPos + j)) ∧
        (IROBOT_Scan360 t SM_F_STEPS_FOR_180 SM_Move closestObject s).closestObject
          = (sampleOrientation SM_Move (SM_Move 0 TDIRECTION.DIR_CW s.sm).1
              (SM_Move 0 TDIRECTION.DIR_CW s.sm).2 k).1) := by
  constructor
  · intro n orientation h
    obtain ⟨k, hk, _, hmin, hfirst, hcl, _⟩ :=
      (IROBOT_Scan360_for_closest SM_Move n orientation closestObject 4000 s).2 h
    exact ⟨k, hk, hmin, hfirst, hcl⟩
  · intro t k180 h
    obtain ⟨k, hk, _, hmin, hfirst, hcl, _⟩ :=
      (IROBOT_Scan360_for_closest SM_Move (toUInt16 ((k180 : Int) * 2))
        (SM_Move 0 TDIRECTION.DIR_CW s.sm).1 closestObject 4000
        { s with sm := (SM_Move 0 TDIRECTION.DIR_CW s.sm).2 }).2 h
    exact ⟨k, hk, hmin, hfirst, hcl⟩

/-- C5 at the readings `[5, 5, 3, 3, 5]` taken from orientation 0 of an
actuator with 8 half-steps per revolution: the sweep records orientation 2,
the first of the two samples reading 3. -/
theorem C5_first_minimum_wins_witness :
    (IROBOT_Scan360_for (SM_Move 8) 5 0 0 4000 (sweepOf 0 [5, 5, 3, 3, 5] 4000)).closestObject
      = 2 ∧
    (sampleOrientation (SM_Move 8) 0 0 2).1 = 2 ∧ (sampleOrientation (SM_Move 8) 0 0 3).1 = 3 ∧
    ∃ k, k < 5 ∧
      (∀ j, j < 5 → (sweepOf 0 [5, 5, 3, 3, 5] 4000).ir (0 + k)
        ≤ (sweepOf 0 [5, 5, 3, 3, 5] 4000).ir (0 + j)) ∧
      (∀ j, j < k → (sweepOf 0 [5, 5, 3, 3, 5] 4000).ir (0 + k)
        < (sweepOf 0 [5, 5, 3, 3, 5] 4000).ir (0 + j)) ∧
      (IROBOT_Scan360_for (SM_Move 8) 5 0 0 4000 (sweepOf 0 [5, 5, 3, 3, 5] 4000)).closestObject
        = (sampleOrientation (SM_Move 8) 0 (sweepOf 0 [5, 5, 3, 3, 5] 4000).sm k).1 :=
  ⟨by decide, by decide, by decide,
    (C5_first_minimum_wins (SM_Move 8) 0 (sweepOf 0 [5, 5, 3, 3, 5] 4000)).1 5 0
      ⟨2, by decide, by decide⟩⟩

/-- C10 at 100 half-steps per 180 degrees, offset 10 and closest orientation
150: 59 steps back. -/
theorem C10_stepsBack_exact_witness :
    0 < 100 ∧ 100 ≤ 255 ∧ 10 < 2 * 100 ∧ 150 < 2 * 100 ∧
    stepsBack createTarget (2 * 100) 10 150 = 59 ∧
    stepsBack createTarget (2 * 100) 10 150 = ((2 * 100 - 1) + 10 - 150) % (2 * 100) ∧
    stepsBack createTarget (2 * 100) 10 150 < 2 * 100 :=
  have h := C10_stepsBack_exact createTarget 100 10 150 (by decide) (by decide) (by decide)
    (by decide)
  ⟨by decide, by decide, by decide, by decide, by decide, h.2.1, h.2.2.2.2.1⟩

/-! ## C4: where the sweep leaves the sensor -/

theorem sampleOrientation_model (S o : Nat) (ho : o < S) (k : Nat) :
    sampleOrientation (SM_Move S) o o k = ((o + k) % S, (o + k) % S) := by
  induction k with
  | zero =>
    show (o, o) = _
    rw [Nat.add_zero, Nat.mod_eq_of_lt ho]
  | succ k ih =>
    show SM_Move S 1 TDIRECTION.DIR_CW (sampleOrientation (SM_Move S) o o k).2 = _
    rw [ih]
    show (((o + k) % S + 1) % S, ((o + k) % S + 1) % S) = _
    rw [Nat.mod_add_mod, Nat.add_assoc]

theorem IROBOT_Scan360_for_sm (S : Nat) :
    ∀ (n orientation c : Nat) (best : ℚ) (s : Sweep Nat), s.sm < S →
      (IROBOT_Scan360_for (SM_Move S) n orientation c best s).sweep.sm = (s.sm + n) % S := by
  intro n
  induction n with
  | zero =>
    intro orientation c best s hs
    show s.sm = _
    rw [Nat.add_zero, Nat.mod_eq_of_lt hs]
  | succ n ih =>
    intro orientation c best s hs
    rw [IROBOT_Scan360_for_succ, ih]
    · show ((s.sm + 1) % S + n) % S = _
      rw [Nat.mod_add_mod]
      congr 1
      omega
    · exact Nat.mod_lt _ (by omega)

theorem return_move_model (S o c : Nat) (hS : 2 ≤ S) (ho : o < S) (hc : c < S) :
    (o + (S - ((S - 1) + o - c) % S % S)) % S = (c + 1) % S ∧ (c + 1) % S ≠ c := by
  constructor
  · rw [Nat.mod_mod]
    by_cases hx : (S - 1) + o - c < S
    · rw [Nat.mod_eq_of_lt hx]
      congr 1
      omega
    · have h1 : ((S - 1) + o - c) % S = (S - 1) + o - c - S := by
        rw [Nat.mod_eq_sub_mod (by omega), Nat.mod_eq_of_lt (by omega)]
      rw [h1]
      have h2 : o + (S - ((S - 1) + o - c - S)) = S + (c + 1) := by omega
      rw [h2, Nat.add_mod_left]
  · by_cases hlast : c + 1 < S
    · rw [Nat.mod_eq_of_lt hlast]
      omega
    · have : c + 1 = S := by omega
      rw [this, Nat.mod_self]
      omega

/-- C4 (what the code does instead): over the modelled actuator with
`S = 2 * SM_F_STEPS_FOR_180` half-steps per revolution (`SM_F_STEPS_FOR_180`
in `1..255`), from every starting orientation in `[0, S)` and for all
readings of which one of the first `S` is below 4000, `IROBOT_Scan360` leaves
the actuator at `(closestObject + 1) mod S`, one half-step clockwise of the
orientation of the smallest reading, and never at `closestObject` itself. -/
theorem C4_sweep_ends_one_step_off (t : Target) (SM_F_STEPS_FOR_180 closestObject : Nat)
    (s : Sweep Nat) (hk : 0 < SM_F_STEPS_FOR_180) (hk8 : SM_F_STEPS_FOR_180 ≤ 255)
    (ho : s.sm < 2 * SM_F_STEPS_FOR_180)
    (h : ∃ i, i < 2 * SM_F_STEPS_FOR_180 ∧ s.ir (s.irPos + i) < 4000) :
    (IROBOT_Scan360 t SM_F_STEPS_FOR_180 (SM_Move (2 * SM_F_STEPS_FOR_180))
        closestObject s).offset = s.sm ∧
    (IROBOT_Scan360 t SM_F_STEPS_FOR_180 (SM_Move (2 * SM_F_STEPS_FOR_180))
        closestObject s).closestObject < 2 * SM_F_STEPS_FOR_180 ∧
    (IROBOT_Scan360 t SM_F_STEPS_FOR_180 (SM_Move (2 * SM_F_STEPS_FOR_180))
        closestObject s).sweep.sm =
      ((IROBOT_Scan360 t SM_F_STEPS_FOR_180 (SM_Move (2 * SM_F_STEPS_FOR_180))
        closestObject s).closestObject + 1) % (2 * SM_F_STEPS_FOR_180) ∧
    (IROBOT_Scan360 t SM_F_STEPS_FOR_180 (SM_Move (2 * SM_F_STEPS_FOR_180))
        closestObject s).sweep.sm ≠
      (IROBOT_Scan360 t SM_F_STEPS_FOR_180 (SM_Move (2 * SM_F_STEPS_FOR_180))
        closestObject s).closestObject := by
  have hS : toUInt16 ((SM_F_STEPS_FOR_180 : Int) * 2) = 2 * SM_F_STEPS_FOR_180 := by
    unfold toUInt16
    omega
  have hm0 : SM_Move (2 * SM_F_STEPS_FOR_180) 0 TDIRECTION.DIR_CW s.sm = (s.sm, s.sm) := by
    show ((s.sm + 0) % _, (s.sm + 0) % _) = _
    rw [Nat.add_zero, Nat.mod_eq_of_lt ho]
  have hs : ({ s with sm := s.sm } : Sweep Nat) = s := by cases s; rfl
  obtain ⟨k, hk', _, _, _, hcl, _⟩ :=
    (IROBOT_Scan360_for_closest (SM_Move (2 * SM_F_STEPS_FOR_180)) (2 * SM_F_STEPS_FOR_180)
      s.sm closestObject 4000 s).2 h
  rw [sampleOrientation_model _ _ ho] at hcl
  have hc : (IROBOT_Scan360_for (SM_Move (2 * SM_F_STEPS_FOR_180)) (2 * SM_F_STEPS_FOR_180)
      s.sm closestObject 4000 s).closestObject < 2 * SM_F_STEPS_FOR_180 := by
    rw [hcl]
    exact Nat.mod_lt _ (by omega)
  have hsm := IROBOT_Scan360_for_sm (2 * SM_F_STEPS_FOR_180) (2 * SM_F_STEPS_FOR_180) s.sm
    closestObject 4000 s ho
  rw [Nat.add_mod_right, Nat.mod_eq_of_lt ho] at hsm
  have hret := return_move_model (2 * SM_F_STEPS_FOR_180) s.sm _ (by omega) ho hc
  unfold IROBOT_Scan360
  simp only [hS, hm0, hs]
  rw [stepsBack_eq_mod t _ _ _ (by omega) (by omega) ho hc]
  refine ⟨trivial, hc, ?_, ?_⟩
  · show (_ + (_ - _ % _)) % _ = _
    rw [hsm]
    exact hret.1
  · show (_ + (_ - _ % _)) % _ ≠ _
    rw [hsm, hret.1]
    exact hret.2

/-- C4 at the failing input: 8 half-steps per revolution, start at
orientation 0, readings `9, 9, 3, 9, 9, 9, 9, 9`.  The smallest reading was
taken at orientation 2, the code steps back 5 half-steps from orientation 0
and the actuator ends at orientation 3. -/
theorem C4_sweep_ends_one_step_off_witness :
    (IROBOT_Scan360 createTarget 4 (SM_Move (2 * 4)) 0
      (sweepOf 0 [9, 9, 3, 9, 9, 9, 9, 9] 4000)).closestObject = 2 ∧
    (IROBOT_Scan360 createTarget 4 (SM_Move (2 * 4)) 0
      (sweepOf 0 [9, 9, 3, 9, 9, 9, 9, 9] 4000)).stepsBack = 5 ∧
    (IROBOT_Scan360 createTarget 4 (SM_Move (2 * 4)) 0
      (sweepOf 0 [9, 9, 3, 9, 9, 9, 9, 9] 4000)).orientation = 3 ∧
    (IROBOT_Scan360 createTarget 4 (SM_Move (2 * 4)) 0
      (sweepOf 0 [9, 9, 3, 9, 9, 9, 9, 9] 4000)).sweep.sm = 3 ∧
    (IROBOT_Scan360 createTarget 4 (SM_Move (2 * 4)) 0
      (sweepOf 0 [9, 9, 3, 9, 9, 9, 9, 9] 4000)).sweep.sm ≠
      (IROBOT_Scan360 createTarget 4 (SM_Move (2 * 4)) 0
        (sweepOf 0 [9, 9, 3, 9, 9, 9, 9, 9] 4000)).closestObject :=
  ⟨by decide, by decide, by decide, by decide,
    (C4_sweep_ends_one_step_off createTarget 4 0 (sweepOf 0 [9, 9, 3, 9, 9, 9, 9, 9] 4000)
      (by decide) (by decide) (by decide) ⟨2, by decide, by decide⟩).2.2.2⟩

/-! ## C9: what the routines of the square write and read -/

theorem sensorTriggered_fst (t : Target) (b : Board) :
    (sensorTriggered t b).1 = groupTripAt t b.rx b.pos := rfl

theorem sensorTriggered_tx (t : Target) (b : Board) :
    (sensorTriggered t b).2.tx = b.tx ++ [OP_SENSORS, OP_SENS_GROUP] := by
  simp [sensorTriggered, USART_InChar, USART_OutChar]

theorem sensorTriggered_lcd (t : Target) (b : Board) :
    (sensorTriggered t b).2.lcd = b.lcd := rfl

theorem rawSum_zero (rx : Nat → Nat) (stride q : Nat) : rawSum rx stride q 0 = 0 := by
  cases q <;> rfl

theorem rawSum_succ (rx : Nat → Nat) (stride q n : Nat) :
    rawSum rx stride q (n + 1) = rawDelta rx q + rawSum rx stride (q + stride) n := by
  cases q <;> rfl

theorem accumulator_shift (rx : Nat → Nat) (q : Nat) (a sign : Int) (j : Nat) :
    toInt16 (toInt16 (a + sign * rawDelta rx (q + 10)) + sign * rawSum rx 12 (q + 12 + 10) j)
      = toInt16 (a + sign * rawSum rx 12 (q + 10) (j + 1)) := by
  have e : q + 12 + 10 = q + 10 + 12 := by omega
  rw [toInt16_add_left, rawSum_succ, e]
  congr 1
  ring

theorem loopEnds_exit (t : Target) (rx : Nat → Nat) (q : Nat) (a sign : Int)
    (go : Int → Bool) (ha : toInt16 a = a) (hgo : go a = false) :
    loopEnds t rx q a sign go 0 false := by
  refine ⟨fun i hi => absurd hi (Nat.not_lt_zero i), fun h => absurd h (by decide), fun _ => ?_⟩
  rw [rawSum_zero, Int.mul_zero, Int.add_zero, ha]
  exact hgo

theorem loopEnds_trip (t : Target) (rx : Nat → Nat) (q : Nat) (a sign : Int)
    (go : Int → Bool) (ha : toInt16 a = a) (hgo : go a = true)
    (htrip : groupTripAt t rx q = true) :
    loopEnds t rx q a sign go 0 true := by
  refine ⟨fun i hi => absurd hi (Nat.not_lt_zero i), fun _ => ?_, fun h => absurd h (by decide)⟩
  rw [rawSum_zero, Int.mul_zero, Int.add_zero, ha, Nat.mul_zero, Nat.add_zero]
  exact ⟨hgo, htrip⟩

theorem loopEnds_step (t : Target) (rx : Nat → Nat) (q : Nat) (a sign : Int)
    (go : Int → Bool) (n : Nat) (tripped : Bool) (ha : toInt16 a = a) (hgo : go a = true)
    (hclear : groupTripAt t rx q = false)
    (h : loopEnds t rx (q + 12) (toInt16 (a + sign * rawDelta rx (q + 10))) sign go n tripped) :
    loopEnds t rx q a sign go (n + 1) tripped := by
  obtain ⟨h1, h2, h3⟩ := h
  have epos : ∀ j, q + 12 + 12 * j = q + 12 * (j + 1) := fun j => by omega
  simp only [accumulator_shift, epos] at h1 h2 h3
  refine ⟨?_, h2, h3⟩
  intro i hi
  cases i with
  | zero =>
    rw [rawSum_zero, Int.mul_zero, Int.add_zero, ha, Nat.mul_zero, Nat.add_zero]
    exact ⟨hgo, hclear⟩
  | succ j => exact h1 j (by omega)

theorem IROBOT_DriveStraight_loop_fuel_zero (t : Target) (dist : Int) (a : Int) (b : Board) :
    IROBOT_DriveStraight_loop t dist 0 a b =
      if a < dist then
        (if !(sensorTriggered t b).1 then none else some (a, (sensorTriggered t b).2))
      else some (a, b) := by
  rw [IROBOT_DriveStraight_loop]

theorem IROBOT_DriveStraight_loop_fuel_succ (t : Target) (dist : Int) (f : Nat) (a : Int)
    (b : Board) :
    IROBOT_DriveStraight_loop t dist (f + 1) a b =
      if a < dist then
        (if !(sensorTriggered t b).1 then
          IROBOT_DriveStraight_loop t dist f
            (toInt16 (a + 1 * rawDelta b.rx (b.pos + 10)))
            (LCD_Print (toInt16 (a + 1 * rawDelta b.rx (b.pos + 10))) TLCDPOS.BM_LEFT
              (USART_InChar (USART_InChar (USART_OutChar OP_SENS_DIST
                (USART_OutChar OP_SENSORS (sensorTriggered t b).2))).2).2)
        else some (a, (sensorTriggered t b).2))
      else some (a, b) := by
  rw [IROBOT_DriveStraight_loop]
  simp only [rawDelta, USART_InChar_fst, USART_InChar_rx, USART_InChar_pos,
    USART_OutChar_rx, USART_OutChar_pos, sensorTriggered_rx, sensorTriggered_pos, Int.one_mul]

theorem IROBOT_DriveStraight_loop_run (t : Target) (dist : Int) :
    ∀ (fuel : Nat) (a : Int) (b : Board) (res : Int × Board),
      toInt16 a = a → IROBOT_DriveStraight_loop t dist fuel a b = some res →
      ∃ n tripped, res.2.rx = b.rx ∧
        res.2.pos = b.pos + 12 * n + (if tripped = true then 10 else 0) ∧
        res.2.tx = b.tx ++
          (List.replicate n [OP_SENSORS, OP_SENS_GROUP, OP_SENSORS, OP_SENS_DIST]).flatten ++
          (if tripped = true then [OP_SENSORS, OP_SENS_GROUP] else []) ∧
        loopEnds t b.rx b.pos a 1 (fun a => decide (a < dist)) n tripped := by
  intro fuel
  induction fuel with
  | zero =>
    intro a b res ha h
    rw [IROBOT_DriveStraight_loop_fuel_zero] at h
    by_cases hc : a < dist
    · by_cases hs : (sensorTriggered t b).1 = true
      · simp only [hc, hs, if_true, Bool.not_true, Bool.false_eq_true, if_false] at h
        injection h with h
        subst h
        refine ⟨0, true, by simp, by simp, by simp [sensorTriggered_tx], ?_⟩
        exact loopEnds_trip t b.rx b.pos a 1 _ ha (decide_eq_true hc)
          (by rw [← sensorTriggered_fst]; exact hs)
      · simp [hc, hs] at h
    · simp only [hc, if_false] at h
      injection h with h
      subst h
      exact ⟨0, false, rfl, by simp, by simp,
        loopEnds_exit t b.rx b.pos a 1 _ ha (decide_eq_false hc)⟩
  | succ f ih =>
    intro a b res ha h
    rw [IROBOT_DriveStraight_loop_fuel_succ] at h
    by_cases hc : a < dist
    · by_cases hs : (sensorTriggered t b).1 = true
      · simp only [hc, hs, if_true, Bool.not_true, Bool.false_eq_true, if_false] at h
        injection h with h
        subst h
        refine ⟨0, true, by simp, by simp, by simp [sensorTriggered_tx], ?_⟩
        exact loopEnds_trip t b.rx b.pos a 1 _ ha (decide_eq_true hc)
          (by rw [← sensorTriggered_fst]; exact hs)
      · simp only [hc, hs, if_true, Bool.not_eq_true, Bool.not_false] at h
        obtain ⟨n, tripped, hrx, hp, htx, hends⟩ := ih _ _ _ (toInt16_idem _) h
        simp only [LCD_Print_rx, LCD_Print_pos, LCD_Print_tx, USART_InChar_rx, USART_InChar_pos,
          USART_InChar_tx, USART_OutChar_rx, USART_OutChar_pos, USART_OutChar_tx,
          sensorTriggered_rx, sensorTriggered_pos, sensorTriggered_tx] at hrx hp htx hends
        refine ⟨n + 1, tripped, hrx, ?_, ?_, ?_⟩
        · rw [hp]; omega
        · rw [htx]
          simp [List.replicate_succ]
        · have e : b.pos + 10 + 1 + 1 = b.pos + 12 := by omega
          rw [e] at hends
          exact loopEnds_step t b.rx b.pos a 1 _ n tripped ha (decide_eq_true hc)
            (by rw [← sensorTriggered_fst]; simpa using hs) hends
    · simp only [hc, if_false] at h
      injection h with h
      subst h
      exact ⟨0, false, rfl, by simp, by simp,
        loopEnds_exit t b.rx b.pos a 1 _ ha (decide_eq_false hc)⟩

theorem rotateRobot_loop_run (t : Target) (angle : Nat) (dir : TDIRECTION) :
    ∀ (fuel : Nat) (a : Int) (b : Board) (res : Int × Board),
      toInt16 a = a → rotateRobot_loop t angle dir fuel a b = some res →
      ∃ n tripped, res.2.rx = b.rx ∧
        res.2.pos = b.pos + 12 * n + (if tripped = true then 10 else 0) ∧
        res.2.tx = b.tx ++
          (List.replicate n [OP_SENSORS, OP_SENS_GROUP, OP_SENSORS, OP_SENS_ANGLE]).flatten ++
          (if tripped = true then [OP_SENSORS, OP_SENS_GROUP] else []) ∧
        loopEnds t b.rx b.pos a (dirSign dir) (fun a => lt_int16_uint16 t a angle) n
          tripped := by
  intro fuel
  induction fuel with
  | zero =>
    intro a b res ha h
    rw [rotateRobot_loop_zero] at h
    by_cases hc : lt_int16_uint16 t a angle = true
    · by_cases hs : (sensorTriggered t b).1 = true
      · simp only [hc, hs, if_true, Bool.not_true, Bool.false_eq_true, if_false] at h
        injection h with h
        subst h
        refine ⟨0, true, by simp, by simp, by simp [sensorTriggered_tx], ?_⟩
        exact loopEnds_trip t b.rx b.pos a _ _ ha hc
          (by rw [← sensorTriggered_fst]; exact hs)
      · simp [hc, hs] at h
    · simp only [hc, if_false] at h
      injection h with h
      subst h
      exact ⟨0, false, rfl, by simp, by simp,
        loopEnds_exit t b.rx b.pos a _ _ ha (by simpa using hc)⟩
  | succ f ih =>
    intro a b res ha h
    rw [rotateRobot_loop_succ] at h
    by_cases hc : lt_int16_uint16 t a angle = true
    · by_cases hs : (sensorTriggered t b).1 = true
      · simp only [hc, hs, if_true, Bool.not_true, Bool.false_eq_true, if_false] at h
        injection h with h
        subst h
        refine ⟨0, true, by simp, by simp, by simp [sensorTriggered_tx], ?_⟩
        exact loopEnds_trip t b.rx b.pos a _ _ ha hc
          (by rw [← sensorTriggered_fst]; exact hs)
      · simp only [hc, hs, if_true, Bool.not_eq_true, Bool.not_false] at h
        obtain ⟨n, tripped, hrx, hp, htx, hends⟩ := ih _ _ _ (toInt16_idem _) h
        simp only [LCD_Print_rx, LCD_Print_pos, LCD_Print_tx, USART_InChar_rx, USART_InChar_pos,
          USART_InChar_tx, USART_OutChar_rx, USART_OutChar_pos, USART_OutChar_tx,
          sensorTriggered_rx, sensorTriggered_pos, sensorTriggered_tx] at hrx hp htx hends
        refine ⟨n + 1, tripped, hrx, ?_, ?_, ?_⟩
        · rw [hp]; omega
        · rw [htx]
          simp [List.replicate_succ]
        · have e : b.pos + 10 + 1 + 1 = b.pos + 12 := by omega
          rw [e] at hends
          exact loopEnds_step t b.rx b.pos a _ _ n tripped ha hc
            (by rw [← sensorTriggered_fst]; simpa using hs) hends
    · simp only [hc, if_false] at h
      injection h with h
      subst h
      exact ⟨0, false, rfl, by simp, by simp,
        loopEnds_exit t b.rx b.pos a _ _ ha (by simpa using hc)⟩

theorem drive_tx_bytes (l r : Int) (b : Board) : (drive l r b).tx = b.tx ++ driveBytes l r :=
  drive_tx l r b

theorem IROBOT_DriveStraight_run (t : Target) (fuel : Nat) (dist : Int) (b : Board)
    (r : Int × Board) (h : IROBOT_DriveStraight t fuel dist b = some r) :
    ∃ n tripped, r.2.rx = b.rx ∧ r.2.pos = b.pos + routineLen n tripped ∧
      r.2.tx = b.tx ++ legTx n tripped ∧ legEnds t b.rx b.pos dist n tripped := by
  unfold IROBOT_DriveStraight at h
  simp only [Option.map_eq_some'] at h
  obtain ⟨a, ha, rfl⟩ := h
  obtain ⟨n, tripped, hrx, hp, htx, hends⟩ :=
    IROBOT_DriveStraight_loop_run t dist fuel 0 _ a (by decide) ha
  simp only [drive_rx, drive_pos, drive_tx_bytes, USART_InChar_rx, USART_InChar_pos,
    USART_InChar_tx, USART_OutChar_rx, USART_OutChar_pos, USART_OutChar_tx] at hrx hp htx hends
  refine ⟨n, tripped, ?_, ?_, ?_, ?_⟩
  · simpa using hrx
  · simp only [drive_pos, hp, routineLen]
    omega
  · simp only [drive_tx_bytes, htx, legTx, routineTx]
    simp
  · have e : b.pos + 1 + 1 = b.pos + 2 := by omega
    rw [e] at hends
    exact hends

theorem rotateRobot_run (t : Target) (fuel : Nat) (angle : Nat) (dir : TDIRECTION) (b : Board)
    (r : Int × Board) (h : rotateRobot t fuel angle dir b = some r) :
    ∃ n tripped, r.2.rx = b.rx ∧ r.2.pos = b.pos + routineLen n tripped ∧
      r.2.tx = b.tx ++ turnTx dir n tripped ∧ turnEnds t b.rx b.pos angle dir n tripped := by
  unfold rotateRobot at h
  simp only [Option.map_eq_some'] at h
  obtain ⟨a, ha, rfl⟩ := h
  obtain ⟨n, tripped, hrx, hp, htx, hends⟩ :=
    rotateRobot_loop_run t angle dir fuel 0 _ a (by decide) ha
  by_cases hd : dir = TDIRECTION.DIR_CCW
  · simp only [hd, if_true, drive_rx, drive_pos, drive_tx_bytes, USART_InChar_rx,
      USART_InChar_pos, USART_InChar_tx, USART_OutChar_rx, USART_OutChar_pos,
      USART_OutChar_tx] at hrx hp htx hends
    refine ⟨n, tripped, ?_, ?_, ?_, ?_⟩
    · simpa using hrx
    · simp only [drive_pos, hp, routineLen]
      omega
    · simp only [drive_tx_bytes, htx, turnTx, routineTx, hd, if_true]
      simp
    · have e : b.pos + 1 + 1 = b.pos + 2 := by omega
      rw [e] at hends
      rw [hd]
      exact hends
  · simp only [hd, if_false, drive_rx, drive_pos, drive_tx_bytes, USART_InChar_rx,
      USART_InChar_pos, USART_InChar_tx, USART_OutChar_rx, USART_OutChar_pos,
      USART_OutChar_tx] at hrx hp htx hends
    refine ⟨n, tripped, ?_, ?_, ?_, ?_⟩
    · simpa using hrx
    · simp only [drive_pos, hp, routineLen]
      omega
    · simp only [drive_tx_bytes, htx, turnTx, routineTx, hd, if_false]
      simp
    · have e : b.pos + 1 + 1 = b.pos + 2 := by omega
      rw [e] at hends
      exact hends

theorem IROBOT_DriveSquare_for_run (t : Target) (fuel : Nat) :
    ∀ (k : Nat) (b b' : Board), IROBOT_DriveSquare_for t fuel k b = some b' →
      ∃ sides : List Side, sides.length = k ∧ b'.rx = b.rx ∧
        b'.pos = b.pos + (sides.map Side.len).sum ∧
        b'.tx = b.tx ++ (sides.map (Side.tx TDIRECTION.DIR_CCW)).flatten ∧
        sidesRun t b.rx 1000 90 TDIRECTION.DIR_CCW b.pos sides := by
  intro k
  induction k with
  | zero =>
    intro b b' h
    simp only [IROBOT_DriveSquare_for, Option.some.injEq] at h
    subst h
    exact ⟨[], rfl, rfl, by simp, by simp, trivial⟩
  | succ k ih =>
    intro b b' h
    simp only [IROBOT_DriveSquare_for, Option.bind_eq_some] at h
    obtain ⟨r1, h1, r2, h2, h3⟩ := h
    obtain ⟨n1, e1, hrx1, hp1, htx1, hends1⟩ := IROBOT_DriveStraight_run t fuel 1000 b r1 h1
    obtain ⟨n2, e2, hrx2, hp2, htx2, hends2⟩ :=
      rotateRobot_run t fuel 90 TDIRECTION.DIR_CCW r1.2 r2 h2
    obtain ⟨rest, hlen, hrx3, hp3, htx3, hrun⟩ := ih r2.2 b' h3
    rw [hrx1, hp1] at hends2
    rw [hrx2, hrx1, hp2, hp1] at hrun
    refine ⟨{ legPolls := n1, legTripped := e1, turnPolls := n2, turnTripped := e2 } :: rest,
      by simp [hlen], by rw [hrx3, hrx2, hrx1], ?_, ?_, ?_⟩
    · rw [hp3, hp2, hp1]
      simp only [List.map_cons, List.sum_cons, Side.len]
      omega
    · rw [htx3, htx2, htx1]
      simp [Side.tx]
    · exact ⟨hends1, hends2, by simpa [Side.len, Nat.add_assoc] using hrun⟩

theorem loopEnds_tail (t : Target) (rx : Nat → Nat) (q : Nat) (a sign : Int)
    (go : Int → Bool) (n : Nat) (tripped : Bool) (ha : toInt16 a = a)
    (h : loopEnds t rx q a sign go (n + 1) tripped) :
    go a = true ∧ groupTripAt t rx q = false ∧
      loopEnds t rx (q + 12) (toInt16 (a + sign * rawDelta rx (q + 10))) sign go n tripped := by
  obtain ⟨h1, h2, h3⟩ := h
  have h0 := h1 0 (Nat.succ_pos n)
  rw [rawSum_zero, Int.mul_zero, Int.add_zero, ha, Nat.mul_zero, Nat.add_zero] at h0
  have epos : ∀ j, q + 12 + 12 * j = q + 12 * (j + 1) := fun j => by omega
  refine ⟨h0.1, h0.2, ?_, ?_, ?_⟩
  · intro i hi
    rw [accumulator_shift, epos]
    exact h1 (i + 1) (by omega)
  · intro ht
    rw [accumulator_shift, epos]
    exact h2 ht
  · intro ht
    rw [accumulator_shift]
    exact h3 ht

theorem loopEnds_now (t : Target) (rx : Nat → Nat) (q : Nat) (a sign : Int)
    (go : Int → Bool) (tripped : Bool) (ha : toInt16 a = a)
    (h : loopEnds t rx q a sign go 0 tripped) :
    (tripped = true → go a = true ∧ groupTripAt t rx q = true) ∧
      (tripped = false → go a = false) := by
  obtain ⟨_, h2, h3⟩ := h
  rw [rawSum_zero, Int.mul_zero, Int.add_zero, ha, Nat.mul_zero, Nat.add_zero] at h2
  rw [rawSum_zero, Int.mul_zero, Int.add_zero, ha] at h3
  exact ⟨h2, h3⟩

theorem IROBOT_DriveStraight_loop_returns (t : Target) (dist : Int) :
    ∀ (n fuel : Nat) (a : Int) (b : Board) (tripped : Bool), toInt16 a = a → n ≤ fuel →
      loopEnds t b.rx b.pos a 1 (fun a => decide (a < dist)) n tripped →
      ∃ res, IROBOT_DriveStraight_loop t dist fuel a b = some res ∧ res.2.rx = b.rx ∧
        res.2.pos = b.pos + 12 * n + (if tripped = true then 10 else 0) ∧
        res.2.tx = b.tx ++
          (List.replicate n [OP_SENSORS, OP_SENS_GROUP, OP_SENSORS, OP_SENS_DIST]).flatten ++
          (if tripped = true then [OP_SENSORS, OP_SENS_GROUP] else []) := by
  intro n
  induction n with
  | zero =>
    intro fuel a b tripped ha _ h
    obtain ⟨h2, h3⟩ := loopEnds_now t b.rx b.pos a 1 _ tripped ha h
    cases tripped with
    | true =>
      obtain ⟨hgo, htrip⟩ := h2 rfl
      have hc : a < dist := of_decide_eq_true hgo
      have hs : (sensorTriggered t b).1 = true := by rw [sensorTriggered_fst]; exact htrip
      refine ⟨(a, (sensorTriggered t b).2), ?_, by simp, by simp, by simp [sensorTriggered_tx]⟩
      cases fuel with
      | zero => rw [IROBOT_DriveStraight_loop_fuel_zero]; simp [hc, hs]
      | succ f => rw [IROBOT_DriveStraight_loop_fuel_succ]; simp [hc, hs]
    | false =>
      have hc : ¬ a < dist := of_decide_eq_false (h3 rfl)
      refine ⟨(a, b), ?_, rfl, by simp, by simp⟩
      cases fuel with
      | zero => rw [IROBOT_DriveStraight_loop_fuel_zero]; simp [hc]
      | succ f => rw [IROBOT_DriveStraight_loop_fuel_succ]; simp [hc]
  | succ n ih =>
    intro fuel a b tripped ha hfuel h
    obtain ⟨hgo, hclear, htail⟩ := loopEnds_tail t b.rx b.pos a 1 _ n tripped ha h
    have hc : a < dist := of_decide_eq_true hgo
    have hs : (sensorTriggered t b).1 = false := by rw [sensorTriggered_fst]; exact hclear
    obtain ⟨f, rfl⟩ : ∃ f, fuel = f + 1 := ⟨fuel - 1, by omega⟩
    obtain ⟨res, hres, hrx, hp, htx⟩ := ih f (toInt16 (a + 1 * rawDelta b.rx (b.pos + 10)))
      (LCD_Print (toInt16 (a + 1 * rawDelta b.rx (b.pos + 10))) TLCDPOS.BM_LEFT
        (USART_InChar (USART_InChar (USART_OutChar OP_SENS_DIST
          (USART_OutChar OP_SENSORS (sensorTriggered t b).2))).2).2)
      tripped (toInt16_idem _) (by omega)
      (by
        simp only [LCD_Print_rx, LCD_Print_pos, USART_InChar_rx, USART_InChar_pos,
          USART_OutChar_rx, USART_OutChar_pos, sensorTriggered_rx, sensorTriggered_pos]
        have e : b.pos + 10 + 1 + 1 = b.pos + 12 := by omega
        rw [e]
        exact htail)
    simp only [LCD_Print_rx, LCD_Print_pos, LCD_Print_tx, USART_InChar_rx, USART_InChar_pos,
      USART_InChar_tx, USART_OutChar_rx, USART_OutChar_pos, USART_OutChar_tx,
      sensorTriggered_rx, sensorTriggered_pos, sensorTriggered_tx] at hrx hp htx
    refine ⟨res, ?_, hrx, ?_, ?_⟩
    · rw [IROBOT_DriveStraight_loop_fuel_succ]
      simp only [hc, hs, if_true, Bool.not_false]
      exact hres
    · rw [hp]; omega
    · rw [htx]
      simp [List.replicate_succ]

theorem rotateRobot_loop_returns (t : Target) (angle : Nat) (dir : TDIRECTION) :
    ∀ (n fuel : Nat) (a : Int) (b : Board) (tripped : Bool), toInt16 a = a → n ≤ fuel →
      loopEnds t b.rx b.pos a (dirSign dir) (fun a => lt_int16_uint16 t a angle) n tripped →
      ∃ res, rotateRobot_loop t angle dir fuel a b = some res ∧ res.2.rx = b.rx ∧
        res.2.pos = b.pos + 12 * n + (if tripped = true then 10 else 0) ∧
        res.2.tx = b.tx ++
          (List.replicate n [OP_SENSORS, OP_SENS_GROUP, OP_SENSORS, OP_SENS_ANGLE]).flatten ++
          (if tripped = true then [OP_SENSORS, OP_SENS_GROUP] else []) := by
  intro n
  induction n with
  | zero =>
    intro fuel a b tripped ha _ h
    obtain ⟨h2, h3⟩ := loopEnds_now t b.rx b.pos a _ _ tripped ha h
    cases tripped with
    | true =>
      obtain ⟨hc, htrip⟩ := h2 rfl
      have hs : (sensorTriggered t b).1 = true := by rw [sensorTriggered_fst]; exact htrip
      refine ⟨(a, (sensorTriggered t b).2), ?_, by simp, by simp, by simp [sensorTriggered_tx]⟩
      cases fuel with
      | zero => rw [rotateRobot_loop_zero]; simp [hc, hs]
      | succ f => rw [rotateRobot_loop_succ]; simp [hc, hs]
    | false =>
      have hc : lt_int16_uint16 t a angle = false := h3 rfl
      refine ⟨(a, b), ?_, rfl, by simp, by simp⟩
      cases fuel with
      | zero => rw [rotateRobot_loop_zero]; simp [hc]
      | succ f => rw [rotateRobot_loop_succ]; simp [hc]
  | succ n ih =>
    intro fuel a b tripped ha hfuel h
    obtain ⟨hc, hclear, htail⟩ := loopEnds_tail t b.rx b.pos a _ _ n tripped ha h
    have hs : (sensorTriggered t b).1 = false := by rw [sensorTriggered_fst]; exact hclear
    obtain ⟨f, rfl⟩ : ∃ f, fuel = f + 1 := ⟨fuel - 1, by omega⟩
    obtain ⟨res, hres, hrx, hp, htx⟩ := ih f
      (toInt16 (a + dirSign dir * rawDelta b.rx (b.pos + 10)))
      (LCD_Print (toInt16 (a + dirSign dir * rawDelta b.rx (b.pos + 10))) TLCDPOS.BM_RIGHT
        (USART_InChar (USART_InChar (USART_OutChar OP_SENS_ANGLE
          (USART_OutChar OP_SENSORS (sensorTriggered t b).2))).2).2)
      tripped (toInt16_idem _) (by omega)
      (by
        simp only [LCD_Print_rx, LCD_Print_pos, USART_InChar_rx, USART_InChar_pos,
          USART_OutChar_rx, USART_OutChar_pos, sensorTriggered_rx, sensorTriggered_pos]
        have e : b.pos + 10 + 1 + 1 = b.pos + 12 := by omega
        rw [e]
        exact htail)
    simp only [LCD_Print_rx, LCD_Print_pos, LCD_Print_tx, USART_InChar_rx, USART_InChar_pos,
      USART_InChar_tx, USART_OutChar_rx, USART_OutChar_pos, USART_OutChar_tx,
      sensorTriggered_rx, sensorTriggered_pos, sensorTriggered_tx] at hrx hp htx
    refine ⟨res, ?_, hrx, ?_, ?_⟩
    · rw [rotateRobot_loop_succ]
      simp only [hc, hs, if_true, Bool.not_false]
      exact hres
    · rw [hp]; omega
    · rw [htx]
      simp [List.replicate_succ]

theorem IROBOT_DriveStraight_returns (t : Target) (fuel : Nat) (dist : Int) (b : Board)
    (n : Nat) (tripped : Bool) (hfuel : n ≤ fuel) (h : legEnds t b.rx b.pos dist n tripped) :
    ∃ r, IROBOT_DriveStraight t fuel dist b = some r ∧ r.2.rx = b.rx ∧
      r.2.pos = b.pos + routineLen n tripped ∧ r.2.tx = b.tx ++ legTx n tripped := by
  obtain ⟨res, hres, hrx, hp, htx⟩ := IROBOT_DriveStraight_loop_returns t dist n fuel 0
    (drive 200 200 (USART_InChar (USART_InChar (USART_OutChar OP_SENS_DIST
      (USART_OutChar OP_SENSORS b))).2).2) tripped (by decide) hfuel
    (by
      simp only [drive_rx, drive_pos, USART_InChar_rx, USART_InChar_pos, USART_OutChar_rx,
        USART_OutChar_pos]
      have e : b.pos + 1 + 1 = b.pos + 2 := by omega
      rw [e]
      exact h)
  simp only [drive_rx, drive_pos, drive_tx_bytes, USART_InChar_rx, USART_InChar_pos,
    USART_InChar_tx, USART_OutChar_rx, USART_OutChar_pos, USART_OutChar_tx] at hrx hp htx
  refine ⟨(res.1, drive 0 0 res.2), ?_, ?_, ?_, ?_⟩
  · unfold IROBOT_DriveStraight
    simp only [hres, Option.map_some']
  · simpa using hrx
  · simp only [drive_pos, hp, routineLen]
    omega
  · simp only [drive_tx_bytes, htx, legTx, routineTx]
    simp

theorem rotateRobot_returns (t : Target) (fuel : Nat) (angle : Nat) (dir : TDIRECTION)
    (b : Board) (n : Nat) (tripped : Bool) (hfuel : n ≤ fuel)
    (h : turnEnds t b.rx b.pos angle dir n tripped) :
    ∃ r, rotateRobot t fuel angle dir b = some r ∧ r.2.rx = b.rx ∧
      r.2.pos = b.pos + routineLen n tripped ∧ r.2.tx = b.tx ++ turnTx dir n tripped := by
  obtain ⟨res, hres, hrx, hp, htx⟩ := rotateRobot_loop_returns t angle dir n fuel 0
    (if dir = TDIRECTION.DIR_CCW then
      drive (-210) 210 (USART_InChar (USART_InChar (USART_OutChar OP_SENS_ANGLE
        (USART_OutChar OP_SENSORS b))).2).2
     else
      drive 210 (-210) (USART_InChar (USART_InChar (USART_OutChar OP_SENS_ANGLE
        (USART_OutChar OP_SENSORS b))).2).2) tripped (by decide) hfuel
    (by
      have e : b.pos + 1 + 1 = b.pos + 2 := by omega
      by_cases hd : dir = TDIRECTION.DIR_CCW
      · simp only [hd, if_true, drive_rx, drive_pos, USART_InChar_rx, USART_InChar_pos,
          USART_OutChar_rx, USART_OutChar_pos]
        rw [e, ← hd]
        exact h
      · simp only [hd, if_false, drive_rx, drive_pos, USART_InChar_rx, USART_InChar_pos,
          USART_OutChar_rx, USART_OutChar_pos]
        rw [e]
        exact h)
  refine ⟨(res.1, drive 0 0 res.2), ?_, ?_, ?_, ?_⟩
  · unfold rotateRobot
    simp only [hres, Option.map_some']
  · rw [drive_rx, hrx]
    split <;> rfl
  · rw [drive_pos, hp]
    simp only [routineLen]
    split <;> simp only [drive_pos, USART_InChar_pos, USART_OutChar_pos] <;> omega
  · rw [drive_tx_bytes, htx]
    by_cases hd : dir = TDIRECTION.DIR_CCW
    · simp only [hd, if_true, drive_tx_bytes, USART_InChar_tx, USART_OutChar_tx, turnTx,
        routineTx]
      simp
    · simp only [hd, if_false, drive_tx_bytes, USART_InChar_tx, USART_OutChar_tx, turnTx,
        routineTx]
      simp

theorem IROBOT_DriveSquare_for_returns (t : Target) (fuel : Nat) :
    ∀ (sides : List Side) (b : Board),
      sidesRun t b.rx 1000 90 TDIRECTION.DIR_CCW b.pos sides →
      (∀ s, s ∈ sides → s.legPolls ≤ fuel ∧ s.turnPolls ≤ fuel) →
      ∃ b', IROBOT_DriveSquare_for t fuel sides.length b = some b' ∧ b'.rx = b.rx ∧
        b'.pos = b.pos + (sides.map Side.len).sum ∧
        b'.tx = b.tx ++ (sides.map (Side.tx TDIRECTION.DIR_CCW)).flatten := by
  intro sides
  induction sides with
  | nil =>
    intro b _ _
    exact ⟨b, rfl, rfl, by simp, by simp⟩
  | cons s rest ih =>
    intro b hrun hfuel
    obtain ⟨hleg, hturn, hrest⟩ := hrun
    obtain ⟨hf1, hf2⟩ := hfuel s (List.mem_cons_self s rest)
    obtain ⟨r1, h1, hrx1, hp1, htx1⟩ :=
      IROBOT_DriveStraight_returns t fuel 1000 b s.legPolls s.legTripped hf1 hleg
    obtain ⟨r2, h2, hrx2, hp2, htx2⟩ :=
      rotateRobot_returns t fuel 90 TDIRECTION.DIR_CCW r1.2 s.turnPolls s.turnTripped hf2
        (by rw [hrx1, hp1]; exact hturn)
    obtain ⟨b', h3, hrx3, hp3, htx3⟩ := ih r2.2
      (by
        rw [hrx2, hrx1, hp2, hp1]
        simpa [Side.len, Nat.add_assoc] using hrest)
      (fun s' hs' => hfuel s' (List.mem_cons_of_mem s hs'))
    refine ⟨b', ?_, by rw [hrx3, hrx2, hrx1], ?_, ?_⟩
    · simp only [List.length_cons, IROBOT_DriveSquare_for, h1, Option.some_bind, h2]
      exact h3
    · rw [hp3, hp2, hp1]
      simp only [List.map_cons, List.sum_cons, Side.len]
      omega
    · rw [htx3, htx2, htx1]
      simp [Side.tx]

/-! ## C9: the square -/

/-- C9: for every incoming byte stream and every bound on the loop
iterations, `IROBOT_DriveSquare` is the four-fold sequential composition of
`IROBOT_DriveStraight(1000)` followed by `rotateRobot(90, DIR_CCW)`.  Whenever
it returns it has run exactly four sides, each a straight leg and then a turn:
the bytes written are, four times over, those of a leg (distance baseline
query, both wheels at 200 mm/s, its polls, stop) followed by those of a
counter-clockwise turn (angle baseline query, left wheel at -210 and right
wheel at 210 mm/s, its polls, stop) and nothing else; every leg ends on a
sensor trip or with at least 1000 mm accumulated, every turn on a sensor trip
or with the angle no longer below 90, and neither ends earlier.  Conversely,
on every stream that lets four sides end this way within the bound on the
iterations, `IROBOT_DriveSquare` returns. -/
theorem C9_square_is_four_legs (t : Target) (fuel : Nat) (b : Board) :
    IROBOT_DriveSquare t fuel b =
      ((((legThenTurn t fuel 1000 90 TDIRECTION.DIR_CCW b).bind
        (legThenTurn t fuel 1000 90 TDIRECTION.DIR_CCW)).bind
        (legThenTurn t fuel 1000 90 TDIRECTION.DIR_CCW)).bind
        (legThenTurn t fuel 1000 90 TDIRECTION.DIR_CCW)) ∧
    (∀ b', IROBOT_DriveSquare t fuel b = some b' →
      ∃ sides : List Side, sides.length = 4 ∧ b'.rx = b.rx ∧
        b'.pos = b.pos + (sides.map Side.len).sum ∧
        b'.tx = b.tx ++ (sides.map (Side.tx TDIRECTION.DIR_CCW)).flatten ∧
        sidesRun t b.rx 1000 90 TDIRECTION.DIR_CCW b.pos sides) ∧
    (∀ sides : List Side, sides.length = 4 →
      sidesRun t b.rx 1000 90 TDIRECTION.DIR_CCW b.pos sides →
      (∀ s, s ∈ sides → s.legPolls ≤ fuel ∧ s.turnPolls ≤ fuel) →
      ∃ b', IROBOT_DriveSquare t fuel b = some b' ∧
        b'.pos = b.pos + (sides.map Side.len).sum ∧
        b'.tx = b.tx ++ (sides.map (Side.tx TDIRECTION.DIR_CCW)).flatten) := by
  refine ⟨IROBOT_DriveSquare_unroll t fuel b, ?_, ?_⟩
  · intro b' h
    exact IROBOT_DriveSquare_for_run t fuel 4 b b' h
  · intro sides hlen hrun hfuel
    obtain ⟨b', h, _, hp, htx⟩ := IROBOT_DriveSquare_for_returns t fuel sides b hrun hfuel
    rw [hlen] at h
    exact ⟨b', h, hp, htx⟩

/-- C9 at a stream on which every leg and every turn reaches its target at
the first poll (delta 1000 for a leg, delta 90 for a turn, sensors clear): the
square returns with one iteration allowed per loop, having read 28 bytes per
side and written, four times over, the 16 bytes of a leg and the 16 bytes of a
counter-clockwise turn. -/
theorem C9_square_is_four_legs_witness :
    ∃ b', IROBOT_DriveSquare createTarget 1 squareBoard = some b' ∧
      b'.pos = 4 * 28 ∧
      b'.tx = (List.replicate 4
        [142, 19, 145, 0, 200, 0, 200, 142, 1, 142, 19, 145, 0, 0, 0, 0,
         142, 20, 145, 0, 210, 255, 46, 142, 1, 142, 20, 145, 0, 0, 0, 0]).flatten ∧
      ∃ sides : List Side, sides.length = 4 ∧
        b'.tx = squareBoard.tx ++ (sides.map (Side.tx TDIRECTION.DIR_CCW)).flatten ∧
        sidesRun createTarget squareBoard.rx 1000 90 TDIRECTION.DIR_CCW squareBoard.pos sides := by
  obtain ⟨b', h, hp, htx⟩ := (C9_square_is_four_legs createTarget 1 squareBoard).2.2
    (List.replicate 4 { legPolls := 1, legTripped := false, turnPolls := 1, turnTripped := false })
    (by decide) (by decide) (by decide)
  obtain ⟨sides, hlen, _, _, htx', hrun⟩ :=
    (C9_square_is_four_legs createTarget 1 squareBoard).2.1 b' h
  exact ⟨b', h, hp.trans (by decide), htx.trans (by decide), sides, hlen, htx', hrun⟩

end MazeRunner
